import Mathlib

set_option maxRecDepth 8000

/-!
Verification development for the cognitive-insight analysis pipeline
(`public/core/engine.js`, `public/core/knowledge.js`, the standalone
conflict-resolution and confidence-scoring modules).

The JavaScript sources are shallowly embedded here.  Numbers are modelled
by `ℚ` (the sources only perform field arithmetic on numeric literals;
the logistic squashing of the standalone confidence scorer uses `Real.exp`
and is modelled over `ℝ`).  JavaScript `undefined`-able fields are
modelled with `Option`, and the `x || d` idiom on numbers (which also
replaces `0` by the default) is modelled explicitly.  Code that can throw
is modelled in `Except`.  Presentation-only string fields (interpretation
and recommendation texts, clinical notes, insight templates) are omitted:
no computation reads them back, except for the confidence scorer, which
only reads an interpretation's length; there the field is kept.
-/

/-! ## Knowledge base (`public/core/knowledge.js`) -/

/-- One lexicon entry.  Fields not read by any embedded computation
(`intensity`, `modifiers`, `reinforces`, `clinical_note`,
`temporal_sensitivity`, `requires_agency`) are omitted.  A context entry
of `valid_contexts` carries the override weight; the subcategory override
is never read back by the enhanced engine (hits always store
`marker.subcategory`), so it is dropped. -/
structure LexEntry where
  category : String
  subcategory : Option String := none
  weight : ℚ
  contradicts : List String := []
  emotional_valence : ℚ := 0
  context_required : Bool := false
  valid_contexts : List (String × ℚ) := []
  deriving DecidableEq

/-- One pattern definition (name, owning driver, thresholds). -/
structure PatternDef where
  name : String
  driver : String
  severity_threshold : ℚ
  weight_multiplier : ℚ
  deriving DecidableEq

/-- One driver definition; only the fields read by the engine are kept. -/
structure DriverDef where
  name : String
  conflicts_with : List String
  deriving DecidableEq

/-- Association-list lookup by string key (JavaScript object property
lookup; keys are unique in all the tables below). -/
def lookupA {α : Type} (k : String) : List (String × α) → Option α
  | [] => none
  | (k2, v) :: t => if k2 = k then some v else lookupA k t

def lexiconTable : List (String × LexEntry) :=
  [ ("always",
     { category := "absolutist", subcategory := some "temporal_absolutism",
       weight := 5/2, contradicts := ["sometimes", "occasionally", "rarely"],
       emotional_valence := -(3/10) }),
    ("never",
     { category := "absolutist", subcategory := some "temporal_absolutism",
       weight := 5/2, contradicts := ["sometimes", "often", "usually"],
       emotional_valence := -(2/5) }),
    ("everything",
     { category := "absolutist", subcategory := some "binary_thinking",
       weight := 11/5, contradicts := ["some", "few", "partial"],
       emotional_valence := -(1/5) }),
    ("nothing",
     { category := "absolutist", subcategory := some "binary_thinking",
       weight := 12/5, contradicts := ["something", "anything"],
       emotional_valence := -(1/2) }),
    ("should",
     { category := "imperative", weight := 3,
       emotional_valence := -(3/5), context_required := true,
       valid_contexts := [("i_should", 4), ("you_should", 5/2),
         ("should_have", 5), ("should_not", 7/2)] }),
    ("must",
     { category := "imperative", weight := 7/2,
       emotional_valence := -(7/10), context_required := false }),
    ("have_to",
     { category := "imperative", weight := 14/5,
       emotional_valence := -(1/2), context_required := true }),
    ("disaster",
     { category := "catastrophizing", weight := 4,
       emotional_valence := -(9/10) }),
    ("terrible",
     { category := "catastrophizing", weight := 16/5,
       emotional_valence := -(4/5) }),
    ("worst",
     { category := "catastrophizing", weight := 7/2,
       contradicts := ["best", "good", "okay"], emotional_valence := -(7/10) }),
    ("failure",
     { category := "self_critic", weight := 19/5,
       emotional_valence := -(4/5) }),
    ("stupid",
     { category := "self_critic", weight := 3,
       emotional_valence := -(7/10) }),
    ("useless",
     { category := "self_critic", weight := 7/2,
       emotional_valence := -(4/5) }),
    ("my_fault",
     { category := "personalization", weight := 4,
       emotional_valence := -(7/10) }),
    ("because_of_me",
     { category := "personalization", weight := 7/2,
       emotional_valence := -(3/5) }),
    ("they_think",
     { category := "mind_reading", weight := 5/2,
       emotional_valence := -(2/5) }),
    ("probably_thinks",
     { category := "mind_reading", weight := 11/5,
       emotional_valence := -(3/10) }),
    ("feel_like",
     { category := "emotional_reasoning", weight := 2,
       emotional_valence := -(1/5) }) ]

def patternsTable : List (String × PatternDef) :=
  [ ("absolutist",
     { name := "All-or-Nothing Thinking", driver := "control",
       severity_threshold := 3, weight_multiplier := 6/5 }),
    ("imperative",
     { name := "Imperative Thinking", driver := "validation",
       severity_threshold := 2, weight_multiplier := 13/10 }),
    ("catastrophizing",
     { name := "Catastrophic Thinking", driver := "safety",
       severity_threshold := 2, weight_multiplier := 3/2 }),
    ("self_critic",
     { name := "Self-Critical Thinking", driver := "validation",
       severity_threshold := 2, weight_multiplier := 7/5 }),
    ("personalization",
     { name := "Personalization", driver := "responsibility",
       severity_threshold := 1, weight_multiplier := 13/10 }),
    ("mind_reading",
     { name := "Mind Reading", driver := "validation",
       severity_threshold := 2, weight_multiplier := 11/10 }),
    ("emotional_reasoning",
     { name := "Emotional Reasoning", driver := "certainty",
       severity_threshold := 2, weight_multiplier := 11/10 }) ]

def driversTable : List (String × DriverDef) :=
  [ ("control",
     { name := "Control & Certainty",
       conflicts_with := ["acceptance", "flexibility"] }),
    ("validation",
     { name := "Validation & Worth",
       conflicts_with := ["autonomy", "self_compassion"] }),
    ("safety",
     { name := "Safety & Protection",
       conflicts_with := ["exploration", "growth"] }),
    ("responsibility",
     { name := "Responsibility & Agency",
       conflicts_with := ["self_compassion", "delegation"] }),
    ("autonomy",
     { name := "Autonomy & Self-Determination",
       conflicts_with := ["connection", "compliance"] }) ]

def kbLexicon (w : String) : Option LexEntry := lookupA w lexiconTable

def kbPatterns (c : String) : Option PatternDef := lookupA c patternsTable

def kbDrivers (d : String) : Option DriverDef := lookupA d driversTable

def hardNegationWords : List String :=
  ["not", "never", "no", "don\x27t", "won\x27t", "can\x27t", "isn\x27t", "wasn\x27t"]

def softNegationWords : List String :=
  ["barely", "hardly", "scarcely", "rarely", "seldom"]

def conditionalNegationWords : List String :=
  ["unless", "except", "but", "however", "although"]

def amplifiersExtreme : List String :=
  ["very", "extremely", "completely", "totally", "utterly", "absolutely"]

def amplifiersModerate : List String :=
  ["really", "quite", "particularly", "especially"]

def amplifiersEmotional : List String :=
  ["horribly", "terribly", "awfully", "dreadfully"]

def diminishersUncertainty : List String :=
  ["somewhat", "kind_of", "a_bit", "slightly", "maybe", "perhaps"]

def diminishersQualification : List String :=
  ["almost", "nearly", "practically", "virtually"]

def diminishersMinimization : List String :=
  ["just", "only", "merely", "simply"]

/-- The `context_config.window_size` constant (also the default `options.contextWindow`). -/
def contextWindow : ℕ := 5

/-- The engine's `temporalSegments` default (the only value used in the
repository: no caller passes `options.temporalSegments`). -/
def temporalSegments : ℕ := 3

/-- The options record taken by `analyze`; only `minConfidence` is ever
read by the embedded computations (`generateEnhancedInsights` filters on
it; the hit filter in `parseTextWithEnhancements` does NOT use it and
compares against the literal `0.3` instead, see below). -/
structure EngineOptions where
  minConfidence : ℚ := 3/10
  deriving DecidableEq

/-! ## Tokenizer (`tokenize`, engine.js) -/

/-- The punctuation class of the tokenizer's padding regex
`[.,!?;:"'()\[\]{}<>]`. -/
def punctuationChars : List Char :=
  ['.', ',', '!', '?', ';', ':', '\x22', '\x27', '(', ')', '[', ']', '\x7b', '\x7d', '<', '>']

/-- Pad every punctuation character with spaces (the `' $& '` regex
replacement). -/
def padPunct (cs : List Char) : List Char :=
  cs.flatMap (fun c => if punctuationChars.contains c then [' ', c, ' '] else [c])

/-- Split on whitespace runs, dropping empty tokens (the
`split(/\s+/).filter(length > 0)` step). -/
def splitWsAux : List Char → List Char → List (List Char)
  | [], acc => if acc.isEmpty then [] else [acc.reverse]
  | c :: rest, acc =>
      if c.isWhitespace then
        if acc.isEmpty then splitWsAux rest [] else acc.reverse :: splitWsAux rest []
      else splitWsAux rest (c :: acc)

/-- One token.  `original`, `charPosition` and sentence metadata are
carried by the source but never read by any computation embedded here
(sentence data only decorates the stored hit context), so they are
omitted. -/
structure Token where
  word : String := ""
  position : ℕ := 0
  isPunctuation : Bool := false
  deriving DecidableEq

/-- The tokenizer `tokenize(text)`: lower-case, pad punctuation, split on whitespace;
`position` is the index in the filtered token sequence. -/
def tokenize (text : String) : List Token :=
  let words := splitWsAux (padPunct text.toLower.data) []
  words.enum.map (fun p =>
    { word := String.mk p.2, position := p.1,
      isPunctuation := decide (p.2 ≠ []) && p.2.all (punctuationChars.contains ·) })

/-- Word of `tokens[i]`, the empty string when out of range (an
out-of-range JavaScript access short-circuits to `undefined`, which is
contained in none of the word lists — the empty string behaves the
same). -/
def wordAt (tokens : List Token) (i : ℕ) : String :=
  ((tokens.get? i).map Token.word).getD ""

/-! ## Context extraction (`extractEnhancedContext`, engine.js) -/

/-- The slices of the context record that are read downstream
(`matchSemanticPattern` reads `preceding` and `fullWindow`; the sentence
and sentiment decorations are never read by the analysis pipeline). -/
structure EContext where
  preceding : List String
  following : List String
  fullWindow : List String
  deriving DecidableEq

def extractEnhancedContext (tokens : List Token) (index : ℕ) : EContext :=
  let start := index - contextWindow
  let stop := min tokens.length (index + contextWindow + 1)
  { preceding := ((tokens.drop start).take (index - start)).map Token.word,
    following := ((tokens.drop (index + 1)).take (stop - (index + 1))).map Token.word,
    fullWindow := ((tokens.drop start).take (stop - start)).map Token.word }

/-! ## Negation resolver (`detectNegationAdvanced`, engine.js) -/

structure NegationState where
  isNegated : Bool := false
  type : String := "none"
  strength : ℚ := 0
  negator : Option String := none
  distance : Option ℕ := none
  deriving DecidableEq

/-- The three negation tiers in their object-iteration order. -/
def negationTiers : List (String × List String × ℚ) :=
  [("hard", hardNegationWords, 1),
   ("soft", softNegationWords, 3/5),
   ("conditional", conditionalNegationWords, 3/10)]

/-- One step of the window scan: try every tier on the word at index
`i`; keep the strictly more effective match. -/
def negScanStep (tokens : List Token) (tokenIndex : ℕ)
    (best : NegationState) (i : ℕ) : NegationState :=
  let word := wordAt tokens i
  negationTiers.foldl (fun b tier =>
    if tier.2.1.contains word then
      let distance := tokenIndex - i
      let eff := tier.2.2 * (1 - (distance : ℚ) / 6)
      if b.strength < eff then
        { isNegated := true, type := tier.1, strength := eff,
          negator := some word, distance := some distance }
      else b
    else b) best

/-- The best match over the 5-token preceding window (before the
double-negative adjustment). -/
def negScanBest (tokens : List Token) (tokenIndex : ℕ) : NegationState :=
  (List.range' (tokenIndex - 5) (tokenIndex - (tokenIndex - 5))).foldl
    (negScanStep tokens tokenIndex) {}

/-- Number of hard negators among the 3 tokens preceding `tokenIndex`
(the marker token itself is not part of this window). -/
def hardNegatorCount (tokens : List Token) (tokenIndex : ℕ) : ℕ :=
  (List.range' (tokenIndex - 3) (tokenIndex - (tokenIndex - 3))).countP
    (fun i => hardNegationWords.contains (wordAt tokens i))

/-- The resolver `detectNegationAdvanced`: best negation match with distance decay,
then the double-negative adjustment: if some negation was found and the
3-token window holds more than one hard negator, an even count cancels
the negation entirely. -/
def detectNegationAdvanced (tokens : List Token) (tokenIndex : ℕ) : NegationState :=
  let best := negScanBest tokens tokenIndex
  if best.isNegated then
    let cnt := hardNegatorCount tokens tokenIndex
    if 1 < cnt ∧ cnt % 2 = 0 then
      { best with isNegated := false, strength := 0, type := "double_negative" }
    else best
  else best

/-! ## Modifier resolver (`analyzeModifiersAdvanced`, engine.js) -/

structure ModEntry where
  word : String
  mtype : String
  distance : ℕ
  deriving DecidableEq

structure ModifierEffect where
  multiplier : ℚ
  intensifiers : List ModEntry
  diminishers : List ModEntry
  hasConflict : Bool
  deriving DecidableEq

structure ModScanState where
  multiplier : ℚ := 1
  intensifiers : List ModEntry := []
  diminishers : List ModEntry := []
  deriving DecidableEq

/-- One step of the 3-token modifier scan: the amplifier else-if chain,
then the diminisher else-if chain, each bonus and penalty scaled by
`max(0.5, 1 − 0.2·distance)`. -/
def modScanStep (tokens : List Token) (tokenIndex : ℕ)
    (s : ModScanState) (i : ℕ) : ModScanState :=
  let word := wordAt tokens i
  let distance := tokenIndex - i
  let dw := max (1/2 : ℚ) (1 - (distance : ℚ) * (1/5))
  let s1 :=
    if amplifiersExtreme.contains word then
      { s with multiplier := s.multiplier + (1/2) * dw,
               intensifiers := s.intensifiers ++ [⟨word, "extreme", distance⟩] }
    else if amplifiersModerate.contains word then
      { s with multiplier := s.multiplier + (3/10) * dw,
               intensifiers := s.intensifiers ++ [⟨word, "moderate", distance⟩] }
    else if amplifiersEmotional.contains word then
      { s with multiplier := s.multiplier + (2/5) * dw,
               intensifiers := s.intensifiers ++ [⟨word, "emotional", distance⟩] }
    else s
  if diminishersUncertainty.contains word then
    { s1 with multiplier := s1.multiplier - (2/5) * dw,
              diminishers := s1.diminishers ++ [⟨word, "uncertainty", distance⟩] }
  else if diminishersQualification.contains word then
    { s1 with multiplier := s1.multiplier - (3/10) * dw,
              diminishers := s1.diminishers ++ [⟨word, "qualification", distance⟩] }
  else if diminishersMinimization.contains word then
    { s1 with multiplier := s1.multiplier - (1/5) * dw,
              diminishers := s1.diminishers ++ [⟨word, "minimization", distance⟩] }
  else s1

/-- The resolver `analyzeModifiersAdvanced`: scan the 3 preceding tokens, apply the
conflict dampening when both amplifiers and diminishers were found, and
clamp the multiplier to `[0.1, 3.0]`. -/
def analyzeModifiersAdvanced (tokens : List Token) (tokenIndex : ℕ) : ModifierEffect :=
  let s := (List.range' (tokenIndex - 3) (tokenIndex - (tokenIndex - 3))).foldl
    (modScanStep tokens tokenIndex) {}
  let hasConflict := decide (s.intensifiers ≠ []) && decide (s.diminishers ≠ [])
  let m1 :=
    if s.intensifiers ≠ [] ∧ s.diminishers ≠ [] then
      s.multiplier * (1 - (min s.intensifiers.length s.diminishers.length : ℚ) * (1/5))
    else s.multiplier
  { multiplier := max (1/10) (min 3 m1),
    intensifiers := s.intensifiers,
    diminishers := s.diminishers,
    hasConflict := hasConflict }

/-- Basic-engine modifier record (the v3.0 engine file keeps one merged
`modifiers` list of typed entries). -/
structure BasicModEffect where
  multiplier : ℚ
  modifiers : List ModEntry
  deriving DecidableEq

/-- The resolver `analyzeModifiers` of the v3.0 engine: scans the whole `preceding`
window with distance measured from the marker, different tier bonuses
(extreme 0.4, moderate 0.2, emotional 0.3; uncertainty −0.3,
qualification −0.2, no minimization tier), one merged else-if chain, and
the same `[0.1, 3.0]` clamp. -/
def analyzeModifiers (preceding : List String) : BasicModEffect :=
  let s := preceding.enum.foldl (fun (s : ModScanState) p =>
    let word := p.2
    let distance := preceding.length - p.1
    let dw := max (1/2 : ℚ) (1 - (distance : ℚ) * (1/5))
    if amplifiersExtreme.contains word then
      { s with multiplier := s.multiplier + (2/5) * dw,
               intensifiers := s.intensifiers ++ [⟨word, "extreme_amplifier", distance⟩] }
    else if amplifiersModerate.contains word then
      { s with multiplier := s.multiplier + (1/5) * dw,
               intensifiers := s.intensifiers ++ [⟨word, "moderate_amplifier", distance⟩] }
    else if amplifiersEmotional.contains word then
      { s with multiplier := s.multiplier + (3/10) * dw,
               intensifiers := s.intensifiers ++ [⟨word, "emotional_amplifier", distance⟩] }
    else if diminishersUncertainty.contains word then
      { s with multiplier := s.multiplier - (3/10) * dw,
               diminishers := s.diminishers ++ [⟨word, "uncertainty_diminisher", distance⟩] }
    else if diminishersQualification.contains word then
      { s with multiplier := s.multiplier - (1/5) * dw,
               diminishers := s.diminishers ++ [⟨word, "qualification_diminisher", distance⟩] }
    else s) {}
  { multiplier := max (1/10) (min 3 s.multiplier),
    modifiers := s.intensifiers ++ s.diminishers }

/-! ## Marker weight (`matchSemanticPattern`, `calculateAdjustedWeight`) -/

/-- Result of `matchSemanticPattern` (`match` is renamed `isMatch`:
`match` is a Lean keyword). -/
structure SemMatch where
  isMatch : Bool
  contextPattern : String := "general"
  contextWeight : ℚ := 0
  deriving DecidableEq

/-- Substring test, `String` modelled on character lists
(JavaScript `String.prototype.includes`). -/
def containsSub : List Char → List Char → Bool
  | hay, pat =>
    if pat.isPrefixOf hay then true
    else match hay with
      | [] => pat.isEmpty
      | _ :: t => containsSub t pat

def strIncludes (hay pat : String) : Bool := containsSub hay.data pat.data

/-- First context of `valid_contexts` whose pattern occurs in the full
window or in the preceding window (declaration order). -/
def findContext (fullJ precJ : String) : List (String × ℚ) → Option (String × ℚ)
  | [] => none
  | (pat, w) :: t =>
      if strIncludes fullJ pat || strIncludes precJ pat then some (pat, w)
      else findContext fullJ precJ t

def matchSemanticPattern (tokenWord : String) (context : EContext) : SemMatch :=
  match kbLexicon tokenWord with
  | none => { isMatch := false }
  | some marker =>
    if marker.context_required ∧ marker.valid_contexts ≠ [] then
      let fullJ := String.intercalate "_" context.fullWindow
      let precJ := String.intercalate "_" context.preceding
      match findContext fullJ precJ marker.valid_contexts with
      | some (pat, w) =>
          { isMatch := true, contextPattern := pat,
            contextWeight := if w = 0 then marker.weight else w }
      | none => { isMatch := true, contextPattern := "general", contextWeight := marker.weight }
    else { isMatch := true, contextPattern := "general", contextWeight := marker.weight }

/-- The weight rule `calculateAdjustedWeight`: context-resolved weight, negation
discount, modifier multiplier, floored at `0.1`.  The JavaScript
`semanticContext.contextWeight || baseWeight` treats a zero context
weight as absent. -/
def calculateAdjustedWeight (baseWeight : ℚ) (neg : NegationState)
    (mods : ModifierEffect) (sem : SemMatch) : ℚ :=
  if sem.isMatch = false then 0
  else
    let w0 := if sem.contextWeight = 0 then baseWeight else sem.contextWeight
    let w1 := if neg.isNegated then w0 * (1 - neg.strength) else w0
    max (1/10) (w1 * mods.multiplier)

/-- The segmenter `getTemporalSegment`: bucket a position into thirds. -/
def getTemporalSegment (position totalLength : ℕ) : String :=
  let segmentSize : ℚ := (totalLength : ℚ) / (temporalSegments : ℚ)
  if (position : ℚ) < segmentSize then "early"
  else if (position : ℚ) < segmentSize * 2 then "middle"
  else "late"

/-! ## Hit parsing (`parseTextWithEnhancements`, engine.js) -/

/-- One marker hit.  The stored context slices, sentence decoration,
`originalWord`, `charPosition`, `clinicalNote` and the token
back-reference are presentation-only and omitted; every field read by a
later pipeline stage is present. -/
structure Hit where
  word : String := ""
  position : ℕ := 0
  category : String := ""
  subcategory : Option String := none
  baseWeight : ℚ := 0
  adjustedWeight : ℚ := 0
  isNegated : Bool := false
  negationType : String := "none"
  negationStrength : ℚ := 0
  modifierEffect : ℚ := 1
  intensifiers : List ModEntry := []
  diminishers : List ModEntry := []
  hasModifierConflict : Bool := false
  semanticContext : String := "general"
  temporalSegment : String := "early"
  emotionalValence : ℚ := 0
  deriving DecidableEq

/-- The body of the parse loop for token index `i`: `none` on
punctuation tokens, non-markers, and sub-threshold adjusted weights.
The filter compares against the literal `0.3` of the source
(`if (adjustedWeight > 0.3)`), not against `options.minConfidence`. -/
def hitAt (tokens : List Token) (i : ℕ) : Option Hit :=
  match tokens.get? i with
  | none => none
  | some token =>
    if token.isPunctuation then none
    else
      match kbLexicon token.word with
      | none => none
      | some marker =>
        let context := extractEnhancedContext tokens i
        let negationState := detectNegationAdvanced tokens i
        let modifierEffect := analyzeModifiersAdvanced tokens i
        let semanticContext := matchSemanticPattern token.word context
        let adjustedWeight :=
          calculateAdjustedWeight marker.weight negationState modifierEffect semanticContext
        if 3/10 < adjustedWeight then
          some { word := token.word, position := i,
                 category := marker.category, subcategory := marker.subcategory,
                 baseWeight := marker.weight, adjustedWeight := adjustedWeight,
                 isNegated := negationState.isNegated,
                 negationType := negationState.type,
                 negationStrength := negationState.strength,
                 modifierEffect := modifierEffect.multiplier,
                 intensifiers := modifierEffect.intensifiers,
                 diminishers := modifierEffect.diminishers,
                 hasModifierConflict := modifierEffect.hasConflict,
                 semanticContext := semanticContext.contextPattern,
                 temporalSegment := getTemporalSegment i tokens.length,
                 emotionalValence := marker.emotional_valence }
        else none

/-- The parse loop over an already tokenized input. -/
def parseTokens (tokens : List Token) : List Hit :=
  (List.range tokens.length).filterMap (hitAt tokens)

def parseTextWithEnhancements (text : String) : List Hit :=
  parseTokens (tokenize text)

/-! ## Generic helpers shared by several stages -/

/-- Insertion into a list sorted by the boolean comparison `le`
(`le a b` means `a` may come before `b`). -/
def insertBy {α : Type} (le : α → α → Bool) (a : α) : List α → List α
  | [] => [a]
  | b :: t => if le a b then a :: b :: t else b :: insertBy le a t

/-- Comparison sort; the model of `Array.prototype.sort` with a
comparator (the engine sorts hits by position, contributing patterns by
contribution, and conflicts by severity). -/
def insertionSortBy {α : Type} (le : α → α → Bool) : List α → List α
  | [] => []
  | a :: t => insertBy le a (insertionSortBy le t)

/-- In-place update of an association list entry (JavaScript mutates the
object property, leaving key order unchanged). -/
def updateAssoc {α : Type} (l : List (String × α)) (k : String) (f : α → α) :
    List (String × α) :=
  l.map (fun p => if p.1 = k then (p.1, f p.2) else p)

/-! ## Pattern clusters (`detectPatternClusters`, engine.js) -/

def sortHitsByPosition (hits : List Hit) : List Hit :=
  insertionSortBy (fun a b => decide (a.position ≤ b.position)) hits

/-- The grouping loop: consecutive hits with positional gap at most 5
accumulate into the current cluster; only clusters with at least two
members are kept.  The current cluster is held reversed for cheap access
to its most recent member. -/
def buildClusters : List Hit → List Hit → List (List Hit)
  | [], cur => if 2 ≤ cur.length then [cur.reverse] else []
  | h :: t, cur =>
      match cur with
      | [] => buildClusters t [h]
      | last :: _ =>
          if (h.position : ℤ) - (last.position : ℤ) ≤ 5 then buildClusters t (h :: cur)
          else if 2 ≤ cur.length then cur.reverse :: buildClusters t [h]
          else buildClusters t [h]

/-- The helper `analyzeClusterPatterns` builds a plain-object histogram of
categories (`patternCounts`); this plain object is what
`aggregatePatternsWithClusters` later treats as a `Map` — see the
aggregation step. -/
def clusterCategoryCounts (cluster : List Hit) : List (String × ℕ) :=
  cluster.foldl (fun acc h =>
    if h.category ≠ "" then
      match lookupA h.category acc with
      | some _ => updateAssoc acc h.category (· + 1)
      | none => acc ++ [(h.category, 1)]
    else acc) []

/-- One detected cluster.  `analyzeClusterPatterns`'s dominant-pattern
summary is dropped: nothing downstream reads it. -/
structure ClusterRec where
  id : String
  markers : List Hit
  size : ℕ
  counts : List (String × ℕ)
  diversity : ℕ
  density : ℚ
  startPosition : ℕ
  endPosition : ℕ
  deriving DecidableEq

def mkClusterRec (p : ℕ × List Hit) : ClusterRec :=
  let cluster := p.2
  let firstPos := ((cluster.head?).map Hit.position).getD 0
  let lastPos := ((cluster.getLast?).map Hit.position).getD 0
  let counts := clusterCategoryCounts cluster
  { id := "cluster-" ++ toString p.1, markers := cluster, size := cluster.length,
    counts := counts, diversity := counts.length,
    density := (cluster.length : ℚ) / ((lastPos : ℚ) - (firstPos : ℚ) + 1),
    startPosition := firstPos, endPosition := lastPos }

def detectPatternClusters (hits : List Hit) : List ClusterRec :=
  if hits.length < 2 then []
  else ((buildClusters (sortHitsByPosition hits) []).enum).map mkClusterRec

/-! ## Pattern aggregation (`aggregatePatternsWithClusters`, engine.js) -/

structure SubStat where
  score : ℚ := 0
  count : ℕ := 0
  deriving DecidableEq

structure MarkerRec where
  word : String
  weight : ℚ
  negated : Bool
  position : ℕ
  deriving DecidableEq

structure TDist where
  early : ℚ := 0
  middle : ℚ := 0
  late : ℚ := 0
  deriving DecidableEq

def TDist.bump (t : TDist) (seg : String) (w : ℚ) : TDist :=
  if seg = "early" then { t with early := t.early + w }
  else if seg = "middle" then { t with middle := t.middle + w }
  else if seg = "late" then { t with late := t.late + w }
  else t

/-- The cluster references attached to a pattern score.  The attach step
of the source always throws (see `aggregatePatternsWithClusters`), so
this list is empty in every constructed value. -/
structure ClusterRef where
  id : String
  size : ℕ
  density : ℚ
  markers : ℕ
  deriving DecidableEq

/-- One per-category pattern score (`patternScores[category]`). -/
structure RawStats where
  score : ℚ := 0
  count : ℕ := 0
  weightedScore : ℚ := 0
  positions : List ℕ := []
  subpatterns : List (String × SubStat) := []
  emotionalValence : List ℚ := []
  confidence : ℚ := 0
  temporalDistribution : TDist := {}
  markers : List MarkerRec := []
  clusters : List ClusterRef := []
  avgValence : ℚ := 0
  severity : Bool := false
  intensity : ℚ := 0
  deriving DecidableEq

/-- Fold one hit into its category's score record. -/
def addHitToStats (s : RawStats) (h : Hit) : RawStats :=
  { s with
    score := s.score + h.adjustedWeight,
    count := s.count + 1,
    weightedScore := s.weightedScore + h.adjustedWeight * (if h.isNegated then 1/2 else 1),
    positions := s.positions ++ [h.position],
    emotionalValence := s.emotionalValence ++ [h.emotionalValence],
    temporalDistribution := s.temporalDistribution.bump h.temporalSegment h.adjustedWeight,
    markers := s.markers ++ [⟨h.word, h.adjustedWeight, h.isNegated, h.position⟩],
    subpatterns :=
      match h.subcategory with
      | some sub =>
          (match lookupA sub s.subpatterns with
           | some _ => updateAssoc s.subpatterns sub
               (fun st => { score := st.score + h.adjustedWeight, count := st.count + 1 })
           | none => s.subpatterns ++ [(sub, { score := h.adjustedWeight, count := 1 })])
      | none => s.subpatterns }

/-- Per-hit update of the `patternScores` accumulator. -/
def stepPS (ps : List (String × RawStats)) (h : Hit) : List (String × RawStats) :=
  match lookupA h.category ps with
  | some _ => updateAssoc ps h.category (fun s => addHitToStats s h)
  | none => ps ++ [(h.category, addHitToStats {} h)]

structure OuterTDist where
  early : List (String × ℚ) := []
  middle : List (String × ℚ) := []
  late : List (String × ℚ) := []
  deriving DecidableEq

def bumpQ (l : List (String × ℚ)) (k : String) (w : ℚ) : List (String × ℚ) :=
  match lookupA k l with
  | some _ => updateAssoc l k (· + w)
  | none => l ++ [(k, w)]

/-- Per-hit update of the cross-category temporal distribution.  The
source maintains the three accumulators (`patternScores`,
`temporalDistribution`, `subpatternDistribution`) in one loop; each
update only touches its own accumulator, so they are folded
separately. -/
def stepTD (t : OuterTDist) (h : Hit) : OuterTDist :=
  if h.temporalSegment = "early" then { t with early := bumpQ t.early h.category h.adjustedWeight }
  else if h.temporalSegment = "middle" then { t with middle := bumpQ t.middle h.category h.adjustedWeight }
  else if h.temporalSegment = "late" then { t with late := bumpQ t.late h.category h.adjustedWeight }
  else t

/-- Per-hit update of the `category.subcategory` distribution. -/
def stepSD (sd : List (String × SubStat)) (h : Hit) : List (String × SubStat) :=
  match h.subcategory with
  | some sub =>
      let key := h.category ++ "." ++ sub
      (match lookupA key sd with
       | some _ => updateAssoc sd key
           (fun st => { score := st.score + h.adjustedWeight, count := st.count + 1 })
       | none => sd ++ [(key, { score := h.adjustedWeight, count := 1 })])
  | none => sd

/-- The score `calculateEnhancedDistributionScore(positions, totalLength)`; note
the caller passes `hits.length` (the number of hits, not the token
count) for `totalLength`. -/
def calculateEnhancedDistributionScore (positions : List ℕ) (totalLength : ℕ) : ℚ :=
  if positions.length < 2 then 1/2
  else
    let gaps := (positions.zip (positions.drop 1)).map (fun p => (p.2 : ℚ) - (p.1 : ℚ))
    let avgGap := gaps.sum / (gaps.length : ℚ)
    let idealGap := (totalLength : ℚ) / (positions.length : ℚ)
    let variance := (gaps.map (fun g => (g - avgGap) * (g - avgGap))).sum / (gaps.length : ℚ)
    let clusteringScore : ℚ := if variance < idealGap * (1/2) then 3/10 else 7/10
    max (1/10) clusteringScore

def calculatePatternIntensity (s : RawStats) : ℚ :=
  min 1 (s.weightedScore / 20) * (2/5)
    + min 1 ((s.count : ℚ) / 10) * (3/10)
    + |s.avgValence| * (1/5)
    + min 1 ((s.clusters.length : ℚ) / 3) * (1/10)

/-- The idiom `pattern.weight_multiplier || 1.0` (`0` is falsy in JavaScript). -/
def effWeightMultiplier (p : PatternDef) : ℚ :=
  if p.weight_multiplier = 0 then 1 else p.weight_multiplier

/-- The idiom `pattern.severity_threshold || 2`. -/
def effSeverityThreshold (p : PatternDef) : ℚ :=
  if p.severity_threshold = 0 then 2 else p.severity_threshold

/-- The confidence pass run for each category after all hits are folded
in: average valence, the five-factor confidence, the pattern-specific
multiplier and severity flag, and the intensity. -/
def finalizeStats (totalHits : ℕ) (c : String) (s0 : RawStats) : RawStats :=
  let s := { s0 with avgValence :=
    if s0.emotionalValence.length = 0 then 0
    else s0.emotionalValence.sum / (s0.emotionalValence.length : ℚ) }
  let countFactor := min ((s.count : ℚ) / 5) 1
  let weightFactor := s.weightedScore / ((s.count : ℚ) * 5)
  let distributionFactor := calculateEnhancedDistributionScore s.positions totalHits
  let clusterFactor := min ((s.clusters.length : ℚ) / 3) 1
  let negationFactor :=
    1 - ((s.markers.filter (·.negated)).length : ℚ) / (s.markers.length : ℚ) * (1/2)
  let conf0 := countFactor * (1/4) + weightFactor * (1/4) + distributionFactor * (1/5)
    + clusterFactor * (1/5) + negationFactor * (1/10)
  let s1 :=
    match kbPatterns c with
    | some p => { s with confidence := conf0 * effWeightMultiplier p,
                         severity := decide (effSeverityThreshold p ≤ s.weightedScore) }
    | none => { s with confidence := conf0 }
  { s1 with intensity := calculatePatternIntensity s1 }

structure AggResult where
  patternScores : List (String × RawStats)
  temporalDistribution : OuterTDist
  subpatternDistribution : List (String × SubStat)
  clusters : List ClusterRec
  deriving DecidableEq

def clusterCrashMsg : String :=
  "TypeError: cluster.patterns.counts.forEach is not a function"

/-- The aggregator `aggregatePatternsWithClusters`.  After the per-hit fold the source
iterates `clusters.forEach(cluster => cluster.patterns.counts.forEach(...))`;
`counts` is a plain object built by `analyzeClusterPatterns` and plain
objects have no `forEach` method, so the first iteration throws a
`TypeError`.  The function therefore only completes when no cluster was
detected; a non-empty cluster list is an error. -/
def aggregatePatternsWithClusters (hits : List Hit) : Except String AggResult :=
  let clusters := detectPatternClusters hits
  let ps := hits.foldl stepPS []
  let td := hits.foldl stepTD {}
  let sd := hits.foldl stepSD []
  if clusters.isEmpty then
    Except.ok { patternScores := ps.map (fun p => (p.1, finalizeStats hits.length p.1 p.2)),
                temporalDistribution := td, subpatternDistribution := sd,
                clusters := clusters }
  else Except.error clusterCrashMsg

/-! ## Driver inference (`inferDriversWithConfidence`, engine.js) -/

structure ContribPattern where
  pattern : String
  patternName : String
  weight : ℚ
  contribution : ℚ
  confidence : ℚ
  markers : List MarkerRec
  intensity : ℚ
  deriving DecidableEq

/-- One per-driver score record.  The knowledge-base decoration strings
(`name`, `insight`, `therapeuticDirection`, expression fields) are
omitted; `manifestations` is omitted because no pattern definition in
the knowledge base carries a `manifestations` field, so the source never
pushes to it. -/
structure DriverData where
  score : ℚ := 0
  weightedScore : ℚ := 0
  contributingPatterns : List ContribPattern := []
  confidence : ℚ := 0
  conflicts : List String := []
  normalizedScore : ℚ := 0
  primary : Bool := false
  intensity : ℚ := 0
  deriving DecidableEq

def contribOf (c : String) (pat : PatternDef) (pd : RawStats) : ContribPattern :=
  { pattern := c, patternName := pat.name, weight := pd.weightedScore,
    contribution := pd.weightedScore * effWeightMultiplier pat,
    confidence := pd.confidence, markers := pd.markers, intensity := pd.intensity }

/-- Fold one pattern-score entry into its declared driver: sums, the
appended contributing pattern, and the running-maximum confidence. -/
def inferStep (acc : List (String × DriverData)) (p : String × RawStats) :
    List (String × DriverData) :=
  match kbPatterns p.1 with
  | none => acc
  | some pat =>
      let entry := contribOf p.1 pat p.2
      match lookupA pat.driver acc with
      | some _ => updateAssoc acc pat.driver (fun d =>
          { d with score := d.score + p.2.score,
                   weightedScore := d.weightedScore + entry.contribution,
                   contributingPatterns := d.contributingPatterns ++ [entry],
                   confidence := max d.confidence p.2.confidence })
      | none => acc ++ [(pat.driver,
          { score := p.2.score, weightedScore := entry.contribution,
            contributingPatterns := [entry], confidence := max 0 p.2.confidence })]

def byContributionDesc (a b : ContribPattern) : Bool :=
  decide (b.contribution ≤ a.contribution)

/-- The normalization pass per driver (normalized score, primary flag,
intensity, knowledge-base conflict list) followed by the sort of the
contributing patterns by contribution, descending. -/
def finalizeDriver (d : String) (data : DriverData) : DriverData :=
  let normalizedScore := min 10 (data.weightedScore / 5)
  let contributionIntensity := min 1 (data.weightedScore / 30)
  let patternIntensity := (data.contributingPatterns.map (·.intensity)).sum
    / (data.contributingPatterns.length : ℚ)
  let conflicts :=
    match kbDrivers d with
    | some info => info.conflicts_with
    | none => data.conflicts
  { data with
    normalizedScore := normalizedScore,
    primary := decide (5 ≤ normalizedScore),
    intensity := contributionIntensity * (3/5) + patternIntensity * (2/5),
    conflicts := conflicts,
    contributingPatterns := insertionSortBy byContributionDesc data.contributingPatterns }

def inferDriversWithConfidence (patternScores : List (String × RawStats)) :
    List (String × DriverData) :=
  (patternScores.foldl inferStep []).map (fun p => (p.1, finalizeDriver p.1 p.2))

/-! ## Conflict detection (`detectEnhancedConflicts`, engine.js, and
`detectNarrativeConflicts` of the standalone `ConflictResolver`) -/

/-- One conflict record; a single record type mirrors the duck-typed
JavaScript objects, with unused fields left at their defaults per
variant.  Interpretation and recommendation strings are omitted. -/
structure EngineConflict where
  ctype : String
  words : List String := []
  categories : List String := []
  positions : List ℕ := []
  drivers : List String := []
  scores : List ℚ := []
  distance : ℤ := 0
  distanceFactor : ℚ := 0
  severity : ℚ := 0
  intensity : ℚ := 0
  weight : ℚ := 0
  word : String := ""
  category : String := ""
  deriving DecidableEq

/-- The driver-pair check of the enhanced engine: `d1`'s declared
conflict list must name `d2`, and both normalized scores must exceed
3. -/
def driverPairConflict (ds : List (String × DriverData)) (i j : ℕ) : Option EngineConflict :=
  match ds.get? i, ds.get? j with
  | some d1p, some d2p =>
      (match kbDrivers d1p.1, kbDrivers d2p.1 with
       | some d1Info, some _ =>
           if d1Info.conflicts_with.contains d2p.1 then
             if 3 < d1p.2.normalizedScore ∧ 3 < d2p.2.normalizedScore then
               some { ctype := "driver_conflict", drivers := [d1p.1, d2p.1],
                      scores := [d1p.2.normalizedScore, d2p.2.normalizedScore],
                      severity := (d1p.2.normalizedScore + d2p.2.normalizedScore) / 20,
                      intensity := min d1p.2.normalizedScore d2p.2.normalizedScore / 10 }
             else none
           else none
       | _, _ => none)
  | _, _ => none

def driverPairConflicts (ds : List (String × DriverData)) : List EngineConflict :=
  (List.range ds.length).flatMap (fun i =>
    (List.range' (i + 1) (ds.length - (i + 1))).filterMap (driverPairConflict ds i))

/-- One candidate lexical contradiction of the enhanced engine: hit `i`'s
lexicon entry must list hit `j`'s word as contradicting.  No
distance-factor cutoff is applied, and the severity constant is
`0.3`. -/
def lexPairE (hits : List Hit) (i j : ℕ) : Option EngineConflict :=
  match hits.get? i, hits.get? j with
  | some hit, some otherHit =>
      (match kbLexicon hit.word with
       | some marker =>
           if marker.contradicts ≠ [] ∧ marker.contradicts.contains otherHit.word then
             let distance : ℤ := (otherHit.position : ℤ) - (hit.position : ℤ)
             let distanceFactor : ℚ := max 0 (1 - (distance : ℚ) / 20)
             some { ctype := "lexical_contradiction",
                    words := [hit.word, otherHit.word],
                    categories := [hit.category, otherHit.category],
                    positions := [hit.position, otherHit.position],
                    distance := distance, distanceFactor := distanceFactor,
                    severity := (hit.adjustedWeight + otherHit.adjustedWeight)
                      * distanceFactor * (3/10) }
           else none
       | none => none)
  | _, _ => none

/-- The enhanced engine's lexical-contradiction scan: for each hit `i`,
only the indices `i+1 ≤ j < min(i+10, hits.length)` are examined. -/
def lexicalConflictsEnhanced (hits : List Hit) : List EngineConflict :=
  (List.range hits.length).flatMap (fun i =>
    (List.range' (i + 1) (min (i + 10) hits.length - (i + 1))).filterMap (lexPairE hits i))

/-- Enhanced self-negation conflicts: a negated hit whose adjusted weight
exceeds 2, severity `weight · 0.2`. -/
def selfNegationConflictsE (hits : List Hit) : List EngineConflict :=
  hits.filterMap (fun hit =>
    if hit.isNegated ∧ 2 < hit.adjustedWeight then
      some { ctype := "self_negation", word := hit.word, category := hit.category,
             positions := [hit.position], weight := hit.adjustedWeight,
             severity := hit.adjustedWeight * (1/5) }
    else none)

/-- Enhanced modifier conflicts: severity `weight · 0.15`. -/
def modifierConflictsE (hits : List Hit) : List EngineConflict :=
  hits.filterMap (fun hit =>
    if hit.hasModifierConflict then
      some { ctype := "modifier_conflict", word := hit.word, category := hit.category,
             severity := hit.adjustedWeight * (3/20) }
    else none)

def bySeverityDesc (a b : EngineConflict) : Bool := decide (b.severity ≤ a.severity)

/-- The detector `detectEnhancedConflicts`: the four scans concatenated in source
order and sorted by severity, descending.  The `patternScores` argument
is accepted and unused, exactly as in the source. -/
def detectEnhancedConflicts (driverScores : List (String × DriverData))
    (_patternScores : List (String × RawStats)) (hits : List Hit) : List EngineConflict :=
  insertionSortBy bySeverityDesc
    (driverPairConflicts driverScores ++ lexicalConflictsEnhanced hits
      ++ selfNegationConflictsE hits ++ modifierConflictsE hits)

/-- One candidate lexical contradiction of the standalone resolver:
absolute distance, a `distanceFactor > 0.3` cutoff, and severity
constant `0.5`. -/
def lexPairR (hits : List Hit) (i j : ℕ) : Option EngineConflict :=
  match hits.get? i, hits.get? j with
  | some hit1, some hit2 =>
      (match kbLexicon hit1.word with
       | some marker1 =>
           if marker1.contradicts ≠ [] ∧ marker1.contradicts.contains hit2.word then
             let distance : ℕ := ((hit2.position : ℤ) - (hit1.position : ℤ)).natAbs
             let distanceFactor : ℚ := max 0 (1 - (distance : ℚ) / 20)
             if 3/10 < distanceFactor then
               some { ctype := "lexical_contradiction",
                      words := [hit1.word, hit2.word],
                      categories := [hit1.category, hit2.category],
                      positions := [hit1.position, hit2.position],
                      distance := (distance : ℤ), distanceFactor := distanceFactor,
                      severity := (hit1.adjustedWeight + hit2.adjustedWeight)
                        * distanceFactor * (1/2) }
             else none
           else none
       | none => none)
  | _, _ => none

/-- The resolver's lexical-contradiction scan: for each hit `i`, ALL
later hits `i+1 ≤ j < hits.length` are examined. -/
def lexicalConflictsResolver (hits : List Hit) : List EngineConflict :=
  (List.range hits.length).flatMap (fun i =>
    (List.range' (i + 1) (hits.length - (i + 1))).filterMap (lexPairR hits i))

/-- Resolver self-negation conflicts: threshold 1.5, severity
`weight · 0.3`. -/
def selfNegationConflictsR (hits : List Hit) : List EngineConflict :=
  hits.filterMap (fun hit =>
    if hit.isNegated ∧ 3/2 < hit.adjustedWeight then
      some { ctype := "self_negation", word := hit.word,
             positions := [hit.position], weight := hit.adjustedWeight,
             severity := hit.adjustedWeight * (3/10) }
    else none)

/-- Resolver modifier conflicts read the merged `modifiers` list of the
v3.0 basic engine's hits.  Hits of the enhanced engine carry no such
field (`hit.modifiers` is `undefined` there and the guard fails), which
the `Option` models. -/
def modifierConflictsR (hits : List (Hit × Option (List ModEntry))) : List EngineConflict :=
  hits.filterMap (fun hp =>
    match hp.2 with
    | some ms =>
        if 1 < ms.length then
          if (ms.any (fun m => strIncludes m.mtype "amplifier"))
              ∧ (ms.any (fun m => strIncludes m.mtype "diminisher")) then
            some { ctype := "modifier_conflict", word := hp.1.word,
                   words := ms.map (·.word), severity := hp.1.adjustedWeight * (1/5) }
          else none
        else none
    | none => none)

/-- The scan `detectNarrativeConflicts` of the standalone resolver, applied to
enhanced-engine hits (whose `modifiers` field is absent). -/
def detectNarrativeConflicts (hits : List Hit) : List EngineConflict :=
  lexicalConflictsResolver hits ++ selfNegationConflictsR hits
    ++ modifierConflictsR (hits.map (fun h => (h, none)))

/-! ## Coherence (`ConflictResolver.calculateCoherence` and
`calculateEnhancedCoherence`, engine.js) -/

/-- The idiom `c.severity || 0.5`: an absent or zero severity counts as 0.5. -/
def effSeverity (s : ℚ) : ℚ := if s = 0 then 1/2 else s

/-- The standalone resolver's overall coherence. -/
def calculateCoherence (narrativeConflicts driverConflicts : List EngineConflict) : ℚ :=
  let totalConflicts := narrativeConflicts.length + driverConflicts.length
  if totalConflicts = 0 then 9/10
  else
    let narrativeSeverity := (narrativeConflicts.map (fun c => effSeverity c.severity)).sum
    let driverSeverity := (driverConflicts.map (fun c => effSeverity c.severity)).sum
    let totalSeverity := narrativeSeverity + driverSeverity
    max (1/10) (1 - totalSeverity / ((totalConflicts : ℚ) * 2))

def calculateDistributionBonus (hits : List Hit) : ℚ :=
  if hits.length < 3 then 0
  else
    let positions := hits.map (·.position)
    let maxP := positions.foldl max 0
    let minP :=
      match positions with
      | [] => 0
      | p :: t => t.foldl min p
    let spread : ℚ := (maxP : ℚ) - (minP : ℚ)
    let density := (hits.length : ℚ) / spread
    let optimalDensity : ℚ := 3/10
    let densityScore := 1 - min 1 (|density - optimalDensity| / optimalDensity)
    densityScore * (1/10)

/-- The enhanced engine's coherence: base 0.7, conflict penalty, cluster
bonus, distribution bonus (the sentiment bonus of the source is the
constant 0), clamped to `[0.1, 1]`. -/
def calculateEnhancedCoherence (hits : List Hit) (conflicts : List EngineConflict)
    (clusters : List ClusterRec) : ℚ :=
  let baseCoherence : ℚ := 7/10
  let conflictPenalty := (conflicts.map (fun c => effSeverity c.severity)).sum * (1/10)
  let clusterBonus := min (1/5) ((clusters.length : ℚ) * (1/20))
  let distributionBonus := calculateDistributionBonus hits
  max (1/10) (min 1 (baseCoherence - conflictPenalty + clusterBonus + distributionBonus))

/-- The analysis record assembled by `analyze` (temporal shift,
sentiment, insights and metadata are decoration layers not read by any
claim and omitted here). -/
structure AnalysisResult where
  hits : List Hit
  patterns : List (String × RawStats)
  drivers : List (String × DriverData)
  conflicts : List EngineConflict
  clusters : List ClusterRec
  coherence : ℚ
  deriving DecidableEq

/-- The analysis pipeline of `analyze` (cache interaction aside): parse,
aggregate, infer drivers, detect conflicts, compute coherence.  The
aggregation step can throw, so the result is in `Except`. -/
def analyze (text : String) : Except String AnalysisResult :=
  let hits := parseTextWithEnhancements text
  match aggregatePatternsWithClusters hits with
  | Except.error e => Except.error e
  | Except.ok agg =>
      let driverScores := inferDriversWithConfidence agg.patternScores
      let conflicts := detectEnhancedConflicts driverScores agg.patternScores hits
      Except.ok { hits := hits, patterns := agg.patternScores, drivers := driverScores,
                  conflicts := conflicts, clusters := agg.clusters,
                  coherence := calculateEnhancedCoherence hits conflicts agg.clusters }

def isError {ε α : Type} : Except ε α → Bool
  | Except.error _ => true
  | Except.ok _ => false

instance {ε α : Type} [DecidableEq ε] [DecidableEq α] : DecidableEq (Except ε α) :=
  fun a b =>
    match a, b with
    | Except.error x, Except.error y => decidable_of_iff (x = y) (by simp)
    | Except.error _, Except.ok _ => isFalse (fun h => Except.noConfusion h)
    | Except.ok _, Except.error _ => isFalse (fun h => Except.noConfusion h)
    | Except.ok x, Except.ok y => decidable_of_iff (x = y) (by simp)

def coherenceOf (text : String) : Option ℚ :=
  match analyze text with
  | Except.ok r => some r.coherence
  | Except.error _ => none

def conflictCountOf (text : String) : Option ℕ :=
  match analyze text with
  | Except.ok r => some r.conflicts.length
  | Except.error _ => none

/-! ## Result cache (`setToCache`, engine.js) -/

/-- The model of `Map.prototype.set`: an existing key keeps its
insertion-order slot and gets the new value; a fresh key is appended. -/
def mapSet {K V : Type} [DecidableEq K] (cache : List (K × V)) (k : K) (v : V) :
    List (K × V) :=
  if cache.any (fun p => decide (p.1 = k)) then
    cache.map (fun p => if p.1 = k then (k, v) else p)
  else cache ++ [(k, v)]

/-- The cache write `setToCache`: when the current size exceeds 100, the first inserted
key (the head of the insertion order) is deleted, then the new entry is
set. -/
def setToCache {K V : Type} [DecidableEq K] (cache : List (K × V)) (k : K) (v : V) :
    List (K × V) :=
  let c1 := if 100 < cache.length then cache.drop 1 else cache
  mapSet c1 k v

/-! ## Confidence scorer (the standalone `ConfidenceScorer` module) -/

def basePatternProb (category : String) : ℚ :=
  (lookupA category
    [("absolutist", 3/20), ("imperative", 1/4), ("catastrophizing", 1/10),
     ("self_critic", 1/5), ("personalization", 2/25), ("mind_reading", 3/25),
     ("emotional_reasoning", 9/50)]).getD (1/10)

def baseDriverProb (driver : String) : ℚ :=
  (lookupA driver
    [("control", 3/10), ("validation", 7/20), ("safety", 1/4),
     ("responsibility", 3/20), ("autonomy", 1/5)]).getD (1/5)

/-- The slice of a pattern record read by the scorer. -/
structure PatScoreInput where
  category : String
  count : ℕ
  weightedScore : ℚ
  positions : List ℕ
  markers : List MarkerRec
  deriving DecidableEq

def calculateCountFactor (count : ℕ) : ℚ :=
  if count = 0 then 1/10
  else if count = 1 then 3/10
  else if count = 2 then 3/5
  else if count = 3 then 4/5
  else if count = 4 then 9/10
  else 19/20

def calculateWeightFactor (weightedScore : ℚ) : ℚ :=
  3/10 + min 1 (weightedScore / 15) * (7/10)

def calculateDistributionFactor (positions : List ℕ) (totalMarkers : ℕ) : ℚ :=
  if positions.length < 2 then 1/2
  else
    let avgPosition := (positions.map (fun p => (p : ℚ))).sum / (positions.length : ℚ)
    let variance := (positions.map
      (fun p => ((p : ℚ) - avgPosition) * ((p : ℚ) - avgPosition))).sum
      / (positions.length : ℚ)
    let maxVariance := ((totalMarkers : ℚ) / 2) * ((totalMarkers : ℚ) / 2)
    let normalizedVariance := variance / maxVariance
    if normalizedVariance < 1/10 then 2/5
    else if 9/10 < normalizedVariance then 7/10
    else 3/5

def calculateConsistencyFactor (markers : List MarkerRec) : ℚ :=
  if markers.length < 2 then 1/2
  else
    let weights := markers.map (·.weight)
    let avgWeight := weights.sum / (weights.length : ℚ)
    let weightVariance := (weights.map (fun w => (w - avgWeight) * (w - avgWeight))).sum
      / (weights.length : ℚ)
    let negatedCount := (markers.filter (·.negated)).length
    let negationConsistency : ℚ :=
      if 2/5 < |(negatedCount : ℚ) / (markers.length : ℚ) - 1/2| then 7/10 else 1/2
    let weightConsistency := max (3/10) (1 - weightVariance / avgWeight)
    weightConsistency * (7/10) + negationConsistency * (3/10)

def calculateContextFactor (markers : List MarkerRec) : ℚ :=
  if markers.length = 0 then 1/2
  else
    (markers.map (fun m =>
      match kbLexicon m.word with
      | some info => if info.context_required then (3/5 : ℚ) else 4/5
      | none => 4/5)).sum / (markers.length : ℚ)

noncomputable def sigmoid (x : ℝ) : ℝ := 1 / (1 + Real.exp (-x))

/-- The scorer `calculatePatternConfidence`: Bayesian-style product of the base
probability and five factors (all rational), squashed through
`sigmoid(10x − 5)` and clamped to `[0.05, 0.95]`; zero-count data short
circuits to 0. -/
noncomputable def calculatePatternConfidence (patternData : PatScoreInput)
    (totalMarkers : ℕ) : ℝ :=
  if patternData.count = 0 then 0
  else
    let factorsProduct : ℚ := basePatternProb patternData.category
      * calculateCountFactor patternData.count
      * calculateWeightFactor patternData.weightedScore
      * calculateDistributionFactor patternData.positions totalMarkers
      * calculateConsistencyFactor patternData.markers
      * calculateContextFactor patternData.markers
    min (19/20) (max (1/20) (sigmoid ((factorsProduct : ℝ) * 10 - 5)))

/-- The slice of a driver record read by the scorer. -/
structure DriverScoreInput where
  driver : String
  weightedScore : ℚ
  deriving DecidableEq

/-- The idiom `p.confidence || 0.5`. -/
def effPatternConfidence (c : ℚ) : ℚ := if c = 0 then 1/2 else c

/-- The scorer `calculateDriverConfidence`: squashed through `sigmoid(8x − 4)` and
clamped to `[0.05, 0.95]`; no contributing patterns short circuits to
0. -/
noncomputable def calculateDriverConfidence (driverData : DriverScoreInput)
    (contributingPatterns : List ContribPattern) : ℝ :=
  if contributingPatterns.length = 0 then 0
  else
    let patternConfidences := contributingPatterns.map
      (fun p => effPatternConfidence p.confidence)
    let avgPatternConfidence := patternConfidences.sum / (patternConfidences.length : ℚ)
    let patternCountFactor := min 1 ((contributingPatterns.length : ℚ) / 3)
    let weightFactor := min 1 (driverData.weightedScore / 20)
    let conf : ℚ := baseDriverProb driverData.driver
      * (3/10 + avgPatternConfidence * (7/10))
      * (1/2 + patternCountFactor * (1/2))
      * (2/5 + weightFactor * (3/5))
    min (19/20) (max (1/20) (sigmoid ((conf : ℝ) * 8 - 4)))

/-- The conflict record shape read by the scorer (duck-typed in the
source; absent fields behave as the defaults given here: `0`, `[]` and
the empty string are exactly the falsy values the guards test). -/
structure ScorerConflict where
  ctype : String
  severity : ℚ := 0
  distance : ℚ := 0
  weight : ℚ := 0
  drivers : List String := []
  interpretation : String := ""
  deriving DecidableEq

def calculateConflictClarity (conflict : ScorerConflict) : ℚ :=
  if conflict.ctype = "lexical_contradiction" then
    (if conflict.distance < 10 then 4/5 else 1/2)
  else if conflict.ctype = "driver_conflict" then 7/10
  else if conflict.ctype = "pattern_conflict" then 3/5
  else if conflict.ctype = "self_negation" then
    (if 2 < conflict.weight then 4/5 else 2/5)
  else 1/2

def calculateConflictEvidence (conflict : ScorerConflict) : ℚ :=
  (if conflict.drivers.length = 2 then (2/5 : ℚ) else 0)
    + (if conflict.interpretation ≠ "" ∧ 20 < conflict.interpretation.length
       then (3/10 : ℚ) else 0)
    + (if conflict.severity ≠ 0 ∧ 3 < conflict.severity then (3/10 : ℚ) else 0)

/-- The scorer `calculateConflictConfidence`: base 0.5, the severity, clarity and
evidence factors, capped at 0.95 from above — the source applies
`Math.min(0.95, confidence)` WITHOUT the `Math.max(0.05, ...)` the
pattern and driver paths apply; there is no lower clamp. -/
def calculateConflictConfidence (conflict : ScorerConflict) : ℚ :=
  let baseProb : ℚ := 1/2
  let severityFactor := min 1 (conflict.severity / 10)
  let clarityFactor := calculateConflictClarity conflict
  let evidenceFactor := calculateConflictEvidence conflict
  min (19/20) (baseProb * (3/10 + severityFactor * (7/10))
    * (2/5 + clarityFactor * (3/5)) * (1/2 + evidenceFactor * (1/2)))

/-! ## Concrete instances used by the theorems below -/

/-- An options value with a raised minimum confidence. -/
def highOptions : EngineOptions := { minConfidence := 2 }

def demoC1Text : String := "I just feel_like that."

def demoC2Text : String := "I am not never going to fail."

def demoC2CancelText : String := "I am not not never going to fail."

def demoC3Text : String := "zzz qqq www"

def demoC5Text : String := "I always feel I should."

def demoC7Text : String :=
  "utterly totally completely disaster one two three utterly totally completely disaster one two three utterly totally completely disaster"

def c7AggFallback : AggResult :=
  { patternScores := [], temporalDistribution := {},
    subpatternDistribution := [], clusters := [] }

/-- A one-hit list whose aggregation succeeds (no cluster), for the C7
witness. -/
def c7WitnessHits : List Hit :=
  [{ word := "must", position := 0, category := "imperative",
     baseWeight := 7/2, adjustedWeight := 7/2 }]

def c7WitnessAgg : AggResult :=
  match aggregatePatternsWithClusters c7WitnessHits with
  | Except.ok r => r
  | Except.error _ => c7AggFallback

def c7WitnessEntry : String × RawStats := c7WitnessAgg.patternScores.getD 0 ("", {})

def c7Confidence : Option ℚ :=
  match aggregatePatternsWithClusters (parseTextWithEnhancements demoC7Text) with
  | Except.ok r => (lookupA "catastrophizing" r.patternScores).map RawStats.confidence
  | Except.error _ => none

def psDemoC6 : List (String × RawStats) :=
  [("imperative",
    { weightedScore := 1, confidence := 2/5, intensity := 1/10, score := 1, count := 1 }),
   ("self_critic",
    { weightedScore := 2, confidence := 7/10, intensity := 1/5, score := 2, count := 1 })]

def ddDemoC6 : DriverData :=
  (lookupA "validation" (inferDriversWithConfidence psDemoC6)).getD {}

def pdDemoC4 : PatScoreInput :=
  { category := "absolutist", count := 1, weightedScore := 1, positions := [0],
    markers := [⟨"always", 1, false, 0⟩] }

def cpDemoC4 : ContribPattern :=
  { pattern := "absolutist", patternName := "All-or-Nothing Thinking",
    weight := 1, contribution := 1, confidence := 1/2, markers := [], intensity := 0 }

/-- A conflict record with zero severity, a self-negation of weight
exactly 2 (clarity 0.4), no driver pair, and no interpretation text:
its confidence falls below 0.05. -/
def lowConflictC4 : ScorerConflict := { ctype := "self_negation", weight := 2 }

def demoConflictC3 : EngineConflict := { ctype := "self_negation", severity := 1 }

def hitAlwaysC10 : Hit :=
  { word := "always", position := 0, category := "absolutist", adjustedWeight := 5/2 }

def hitSometimesC10 (pos : ℕ) : Hit :=
  { word := "sometimes", position := pos, category := "plain", adjustedWeight := 1 }

def fillerHitC10 (pos : ℕ) : Hit :=
  { word := "mmm", position := pos, category := "plain", adjustedWeight := 1 }

/-- Eleven hits: the first contradicts the last (list distance 10, token
distance 10), with nine non-marker hits between them. -/
def demoHitsFar : List Hit :=
  hitAlwaysC10 :: (List.range' 1 9).map fillerHitC10 ++ [hitSometimesC10 10]

def demoHitsNear : List Hit := [hitAlwaysC10, hitSometimesC10 1]

def cNearConflictC10 : EngineConflict :=
  (lexicalConflictsEnhanced demoHitsNear).getD 0 { ctype := "" }

def bigCacheTail : List (ℕ × ℕ) := (List.range' 1 100).map (fun i => (i, 0))

/-- The token sequences of the demonstration inputs (each is proved
equal to the corresponding `tokenize` run below). -/
def demoC1Tokens : List Token :=
  [⟨"i", 0, false⟩, ⟨"just", 1, false⟩, ⟨"feel_like", 2, false⟩,
   ⟨"that", 3, false⟩, ⟨".", 4, true⟩]

def demoC2Tokens : List Token :=
  [⟨"i", 0, false⟩, ⟨"am", 1, false⟩, ⟨"not", 2, false⟩, ⟨"never", 3, false⟩,
   ⟨"going", 4, false⟩, ⟨"to", 5, false⟩, ⟨"fail", 6, false⟩, ⟨".", 7, true⟩]

def demoC2CancelTokens : List Token :=
  [⟨"i", 0, false⟩, ⟨"am", 1, false⟩, ⟨"not", 2, false⟩, ⟨"not", 3, false⟩,
   ⟨"never", 4, false⟩, ⟨"going", 5, false⟩, ⟨"to", 6, false⟩,
   ⟨"fail", 7, false⟩, ⟨".", 8, true⟩]

def demoC3Tokens : List Token :=
  [⟨"zzz", 0, false⟩, ⟨"qqq", 1, false⟩, ⟨"www", 2, false⟩]

def demoC5Tokens : List Token :=
  [⟨"i", 0, false⟩, ⟨"always", 1, false⟩, ⟨"feel", 2, false⟩,
   ⟨"i", 3, false⟩, ⟨"should", 4, false⟩, ⟨".", 5, true⟩]

def demoC7Tokens : List Token :=
  [⟨"utterly", 0, false⟩, ⟨"totally", 1, false⟩, ⟨"completely", 2, false⟩,
   ⟨"disaster", 3, false⟩, ⟨"one", 4, false⟩, ⟨"two", 5, false⟩, ⟨"three", 6, false⟩,
   ⟨"utterly", 7, false⟩, ⟨"totally", 8, false⟩, ⟨"completely", 9, false⟩,
   ⟨"disaster", 10, false⟩, ⟨"one", 11, false⟩, ⟨"two", 12, false⟩, ⟨"three", 13, false⟩,
   ⟨"utterly", 14, false⟩, ⟨"totally", 15, false⟩, ⟨"completely", 16, false⟩,
   ⟨"disaster", 17, false⟩]

/-! ## Helper lemmas -/

theorem mem_insertBy {α : Type} (le : α → α → Bool) (a b : α) (l : List α) :
    b ∈ insertBy le a l ↔ b = a ∨ b ∈ l := by
  induction l with
  | nil => simp [insertBy]
  | cons c t ih =>
      simp only [insertBy]
      split
      · simp [List.mem_cons]
      · simp only [List.mem_cons, ih]
        tauto

theorem mem_insertionSortBy {α : Type} (le : α → α → Bool) (b : α) (l : List α) :
    b ∈ insertionSortBy le l ↔ b ∈ l := by
  induction l with
  | nil => simp [insertionSortBy]
  | cons a t ih => simp [insertionSortBy, mem_insertBy, ih]

theorem pairwise_insertBy {α : Type} (le : α → α → Bool)
    (htot : ∀ a b, le a b = true ∨ le b a = true)
    (htrans : ∀ a b c, le a b = true → le b c = true → le a c = true)
    (a : α) (l : List α) (hl : l.Pairwise (fun x y => le x y = true)) :
    (insertBy le a l).Pairwise (fun x y => le x y = true) := by
  induction l with
  | nil => simp [insertBy]
  | cons c t ih =>
      rw [List.pairwise_cons] at hl
      simp only [insertBy]
      split
      · rename_i hac
        refine List.Pairwise.cons ?_ (List.Pairwise.cons hl.1 hl.2)
        intro x hx
        rcases List.mem_cons.mp hx with h | h
        · exact h ▸ hac
        · exact htrans a c x hac (hl.1 x h)
      · rename_i hac
        have hca : le c a = true := (htot a c).resolve_left hac
        refine List.Pairwise.cons ?_ (ih hl.2)
        intro x hx
        rcases (mem_insertBy le a x t).mp hx with h | h
        · exact h ▸ hca
        · exact hl.1 x h

theorem pairwise_insertionSortBy {α : Type} (le : α → α → Bool)
    (htot : ∀ a b, le a b = true ∨ le b a = true)
    (htrans : ∀ a b c, le a b = true → le b c = true → le a c = true)
    (l : List α) :
    (insertionSortBy le l).Pairwise (fun x y => le x y = true) := by
  induction l with
  | nil => simp [insertionSortBy]
  | cons a t ih => exact pairwise_insertBy le htot htrans a _ ih

theorem lookupA_mem {α : Type} {k : String} {v : α} :
    ∀ {l : List (String × α)}, lookupA k l = some v → (k, v) ∈ l := by
  intro l
  induction l with
  | nil => intro h; simp [lookupA] at h
  | cons p t ih =>
      intro h
      simp only [lookupA] at h
      split at h
      · rename_i heq
        cases h
        exact heq ▸ List.mem_cons_self _ _
      · exact List.mem_cons_of_mem _ (ih h)

theorem lookupA_map {α β : Type} (k : String) (g : String → α → β) :
    ∀ (l : List (String × α)),
      lookupA k (l.map (fun p => (p.1, g p.1 p.2))) = (lookupA k l).map (g k) := by
  intro l
  induction l with
  | nil => simp [lookupA]
  | cons p t ih =>
      simp only [List.map_cons, lookupA]
      split
      · rename_i heq; subst heq; simp
      · exact ih

theorem lookupA_updateAssoc {α : Type} (d key : String) (f : α → α) :
    ∀ (l : List (String × α)),
      lookupA d (updateAssoc l key f) =
        if key = d then (lookupA d l).map f else lookupA d l := by
  intro l
  induction l with
  | nil => simp [lookupA, updateAssoc]
  | cons p t ih =>
      obtain ⟨pk, pv⟩ := p
      simp only [updateAssoc, List.map_cons] at ih ⊢
      by_cases hpk : pk = key
      · rw [if_pos hpk]
        simp only [lookupA]
        by_cases hpd : pk = d
        · rw [if_pos hpd, if_pos (hpk.symm.trans hpd), if_pos hpd]
          simp
        · have hkd : ¬key = d := fun h => hpd (hpk.trans h)
          rw [if_neg hpd, ih, if_neg hkd, if_neg hkd, if_neg hpd]
      · rw [if_neg hpk]
        simp only [lookupA]
        by_cases hpd : pk = d
        · have hkd : ¬key = d := fun h => hpk (hpd.trans h.symm)
          rw [if_pos hpd, if_neg hkd, if_pos hpd]
        · rw [if_neg hpd, ih]
          by_cases hkd : key = d
          · rw [if_pos hkd, if_pos hkd, if_neg hpd]
          · rw [if_neg hkd, if_neg hkd, if_neg hpd]

theorem lookupA_append {α : Type} (k : String) :
    ∀ (l1 l2 : List (String × α)),
      lookupA k (l1 ++ l2) =
        match lookupA k l1 with
        | some v => some v
        | none => lookupA k l2 := by
  intro l1 l2
  induction l1 with
  | nil => simp [lookupA]
  | cons p t ih =>
      simp only [List.cons_append, lookupA]
      split
      · rfl
      · exact ih

theorem tokenize_demoC1 : tokenize demoC1Text = demoC1Tokens := by
  with_unfolding_all decide

theorem tokenize_demoC2 : tokenize demoC2Text = demoC2Tokens := by
  with_unfolding_all decide

theorem tokenize_demoC2Cancel : tokenize demoC2CancelText = demoC2CancelTokens := by
  with_unfolding_all decide

theorem tokenize_demoC3 : tokenize demoC3Text = demoC3Tokens := by
  with_unfolding_all decide

theorem tokenize_demoC5 : tokenize demoC5Text = demoC5Tokens := by
  with_unfolding_all decide

theorem tokenize_demoC7 : tokenize demoC7Text = demoC7Tokens := by
  with_unfolding_all decide

/-! ## Claim theorems -/

/-- C9: for every token sequence and index (enhanced engine) and for
every preceding window (basic v3.0 engine), the modifier multiplier
produced by the modifier resolver lies in the closed interval
[0.1, 3.0], including when the amplifier/diminisher conflict dampening
applies — the final clamp runs after the dampening. -/
theorem C9_modifier_multiplier_clamped :
    ∀ (tokens : List Token) (tokenIndex : ℕ) (preceding : List String),
      (1/10 ≤ (analyzeModifiersAdvanced tokens tokenIndex).multiplier
        ∧ (analyzeModifiersAdvanced tokens tokenIndex).multiplier ≤ 3)
      ∧ (1/10 ≤ (analyzeModifiers preceding).multiplier
        ∧ (analyzeModifiers preceding).multiplier ≤ 3) := by
  intro tokens tokenIndex preceding
  refine ⟨⟨?_, ?_⟩, ?_, ?_⟩ <;>
    simp only [analyzeModifiersAdvanced, analyzeModifiers]
  · exact le_max_left _ _
  · exact max_le (by norm_num) (min_le_left _ _)
  · exact le_max_left _ _
  · exact max_le (by norm_num) (min_le_left _ _)

/-- C5: on the failing input the enhanced pattern aggregator computes no
confidence at all — the two hits (positions 1 and 4, gap 3) form one
cluster, and the cluster-attachment loop calls `forEach` on a plain
object, which throws.  The claim's confidence formula is the intent of
the code that the crash makes unreachable whenever `clusterFactor` could
be non-zero. -/
theorem C5_cluster_crash_on_failing_input :
    isError (aggregatePatternsWithClusters (parseTextWithEnhancements demoC5Text)) = true
    ∧ (detectPatternClusters (parseTextWithEnhancements demoC5Text)).length = 1
    ∧ (parseTextWithEnhancements demoC5Text).map Hit.position = [1, 4] := by
  simp only [parseTextWithEnhancements, tokenize_demoC5]
  with_unfolding_all decide

/-- C4 counterexample: a conflict record (zero severity, a self-negation
of weight exactly 2, no driver pair, no interpretation text) whose
confidence is 0.048, strictly below the claimed lower bound 0.05. -/
theorem C4_counterexample_conflict_below_bound :
    calculateConflictConfidence lowConflictC4 = 6/125
    ∧ ¬((1/20 : ℚ) ≤ calculateConflictConfidence lowConflictC4) :=
  ⟨by with_unfolding_all decide, by with_unfolding_all decide⟩

/-- C4 (amended): pattern and driver confidences are clamped into
[0.05, 0.95] whenever the data is non-degenerate (non-zero count,
non-empty contributing patterns); conflict confidence is only capped
above by 0.95 — the conflict path has no lower clamp. -/
theorem C4_confidence_bounds_amended :
    (∀ (pd : PatScoreInput) (tm : ℕ), pd.count ≠ 0 →
      (1/20 : ℝ) ≤ calculatePatternConfidence pd tm
        ∧ calculatePatternConfidence pd tm ≤ 19/20)
    ∧ (∀ (dd : DriverScoreInput) (cps : List ContribPattern), cps ≠ [] →
      (1/20 : ℝ) ≤ calculateDriverConfidence dd cps
        ∧ calculateDriverConfidence dd cps ≤ 19/20)
    ∧ (∀ c : ScorerConflict, calculateConflictConfidence c ≤ 19/20) := by
  refine ⟨?_, ?_, ?_⟩
  · intro pd tm hc
    simp only [calculatePatternConfidence]
    rw [if_neg hc]
    exact ⟨le_min (by norm_num) (le_max_left _ _), min_le_left _ _⟩
  · intro dd cps hne
    simp only [calculateDriverConfidence]
    rw [if_neg (fun h => hne (List.length_eq_zero.mp h))]
    exact ⟨le_min (by norm_num) (le_max_left _ _), min_le_left _ _⟩
  · intro c
    simp only [calculateConflictConfidence]
    exact min_le_left _ _

/-- C4 witness: the amended bounds applied at concrete inputs. -/
theorem C4_confidence_bounds_witness :
    ((1/20 : ℝ) ≤ calculatePatternConfidence pdDemoC4 1
      ∧ calculatePatternConfidence pdDemoC4 1 ≤ 19/20)
    ∧ ((1/20 : ℝ) ≤ calculateDriverConfidence ⟨"control", 1⟩ [cpDemoC4]
      ∧ calculateDriverConfidence ⟨"control", 1⟩ [cpDemoC4] ≤ 19/20)
    ∧ calculateConflictConfidence lowConflictC4 ≤ 19/20 :=
  ⟨C4_confidence_bounds_amended.1 pdDemoC4 1 (by with_unfolding_all decide),
   C4_confidence_bounds_amended.2.1 ⟨"control", 1⟩ [cpDemoC4] (by with_unfolding_all decide),
   C4_confidence_bounds_amended.2.2 lowConflictC4⟩

/-- C3 counterexample: a marker-free input passes through the whole
pipeline with zero conflicts, yet its analysis coherence is 0.7, not the
claimed fixed value 0.9. -/
theorem C3_counterexample_no_conflict_coherence :
    coherenceOf demoC3Text = some (7/10)
    ∧ conflictCountOf demoC3Text = some 0
    ∧ ¬((7/10 : ℚ) = 9/10) := by
  refine ⟨?_, ?_, by norm_num⟩ <;>
    simp only [coherenceOf, conflictCountOf, analyze, parseTextWithEnhancements,
      tokenize_demoC3] <;>
    with_unfolding_all decide

/-- C3 (amended): both coherence computations stay inside [0.1, 1] (the
resolver's under nonnegative effective severities); the standalone
resolver's coherence is 0.9 without conflicts and
`max(0.1, 1 − totalSeverity/(2·count))` with conflicts; the engine's
analysis coherence instead starts from the base 0.7 with penalty and
bonuses, so a conflict-free analysis yields 0.7 rather than 0.9. -/
theorem C3_coherence_amended :
    (∀ n d : List EngineConflict,
      (∀ c ∈ n ++ d, 0 ≤ effSeverity c.severity) →
      1/10 ≤ calculateCoherence n d ∧ calculateCoherence n d ≤ 1)
    ∧ (∀ n d : List EngineConflict, n.length + d.length = 0 →
        calculateCoherence n d = 9/10)
    ∧ (∀ n d : List EngineConflict, n.length + d.length ≠ 0 →
        calculateCoherence n d = max (1/10)
          (1 - ((n.map (fun c => effSeverity c.severity)).sum
                + (d.map (fun c => effSeverity c.severity)).sum)
            / (((n.length + d.length : ℕ) : ℚ) * 2)))
    ∧ (∀ (hits : List Hit) (conflicts : List EngineConflict) (clusters : List ClusterRec),
        1/10 ≤ calculateEnhancedCoherence hits conflicts clusters
        ∧ calculateEnhancedCoherence hits conflicts clusters ≤ 1) := by
  refine ⟨?_, ?_, ?_, ?_⟩
  · intro n d h
    simp only [calculateCoherence]
    by_cases hz : n.length + d.length = 0
    · rw [if_pos hz]; norm_num
    · rw [if_neg hz]
      refine ⟨le_max_left _ _, max_le (by norm_num) ?_⟩
      have h1 : 0 ≤ (n.map (fun c => effSeverity c.severity)).sum := by
        apply List.sum_nonneg
        intro x hx
        obtain ⟨c, hc, rfl⟩ := List.mem_map.mp hx
        exact h c (List.mem_append.mpr (Or.inl hc))
      have h2 : 0 ≤ (d.map (fun c => effSeverity c.severity)).sum := by
        apply List.sum_nonneg
        intro x hx
        obtain ⟨c, hc, rfl⟩ := List.mem_map.mp hx
        exact h c (List.mem_append.mpr (Or.inr hc))
      have hd : 0 ≤ ((n.length + d.length : ℕ) : ℚ) * 2 := by positivity
      exact sub_le_self _ (div_nonneg (by linarith) hd)
  · intro n d hz
    simp only [calculateCoherence]
    rw [if_pos hz]
  · intro n d hz
    simp only [calculateCoherence]
    rw [if_neg hz]
  · intro hits conflicts clusters
    simp only [calculateEnhancedCoherence]
    exact ⟨le_max_left _ _, max_le (by norm_num) (min_le_left _ _)⟩

/-- C3 witness: the resolver bounds and the no-conflict value at
concrete conflict lists. -/
theorem C3_coherence_witness :
    (1/10 ≤ calculateCoherence [demoConflictC3] []
      ∧ calculateCoherence [demoConflictC3] [] ≤ 1)
    ∧ calculateCoherence [] [] = 9/10 :=
  ⟨C3_coherence_amended.1 [demoConflictC3] [] (by with_unfolding_all decide),
   C3_coherence_amended.2.1 [] [] (by with_unfolding_all decide)⟩

theorem parseTokens_above_constant (tokens : List Token) :
    ∀ h ∈ parseTokens tokens, 3/10 < h.adjustedWeight := by
  intro h hmem
  simp only [parseTokens, List.mem_filterMap] at hmem
  obtain ⟨i, -, hi⟩ := hmem
  simp only [hitAt] at hi
  split at hi
  · exact Option.noConfusion hi
  · split at hi
    · exact Option.noConfusion hi
    · split at hi
      · exact Option.noConfusion hi
      · split at hi
        · rename_i hc
          cases hi
          exact hc
        · exact Option.noConfusion hi

/-- C1 (amended): every hit returned by the parse stage has adjusted
weight strictly above the constant 0.3 — the hit filter compares against
the hard-coded literal `0.3` of the source, not against the configured
`minConfidence`, so the bound does not move with the options. -/
theorem C1_hits_above_constant_threshold :
    ∀ text : String,
      (parseTextWithEnhancements text).all
        (fun h => decide ((3 : ℚ)/10 < h.adjustedWeight)) = true := by
  intro text
  rw [List.all_eq_true]
  intro h hm
  rw [decide_eq_true_eq]
  simp only [parseTextWithEnhancements] at hm
  exact parseTokens_above_constant (tokenize text) h hm

/-- C1 counterexample: with the configured `minConfidence` raised to 2,
the analysis still returns a hit (`feel_like`, adjusted weight 1.68)
whose adjusted weight is below the configured threshold: the filter
ignores `options.minConfidence`. -/
theorem C1_counterexample_configured_threshold :
    ∃ h ∈ parseTextWithEnhancements demoC1Text,
      h.adjustedWeight < highOptions.minConfidence := by
  simp only [parseTextWithEnhancements, tokenize_demoC1]
  with_unfolding_all decide

/-- C2 counterexample: on `"I am not never going to fail."` the marker
`never` (token index 3) resolves NEGATED — hard negation by `not` at
distance 1, strength 5/6 — not to the cancelled double-negative state
the claim asserts: the 3-token recount window precedes the marker and
contains only one hard negator (`not`), an odd count. -/
theorem C2_counterexample_never_not_cancelled :
    wordAt (tokenize demoC2Text) 3 = "never"
    ∧ (detectNegationAdvanced (tokenize demoC2Text) 3).isNegated = true
    ∧ (detectNegationAdvanced (tokenize demoC2Text) 3).type = "hard"
    ∧ (detectNegationAdvanced (tokenize demoC2Text) 3).strength = 5/6
    ∧ hardNegatorCount (tokenize demoC2Text) 3 = 1
    ∧ ¬((detectNegationAdvanced (tokenize demoC2Text) 3).isNegated = false
        ∧ (detectNegationAdvanced (tokenize demoC2Text) 3).type = "double_negative")
    ∧ (parseTextWithEnhancements demoC2Text).map
        (fun h => (h.word, h.isNegated)) = [("never", true)] := by
  simp only [parseTextWithEnhancements, tokenize_demoC2]
  with_unfolding_all decide

/-- C2 (amended): on that input `never` resolves with
`isNegated = true`, type `hard`, strength 5/6 (negator `not`, distance
1).  The double-negative rule itself is as described: after a negation
match, the hard negators among the 3 tokens preceding the marker are
recounted; an even count of at least 2 cancels the negation
(`isNegated = false`, strength 0, type `double_negative`) and any other
count leaves the match unchanged.  Cancellation therefore needs two hard
negators strictly before the marker; the marker itself is never
counted. -/
theorem C2_negation_amended :
    (wordAt (tokenize demoC2Text) 3 = "never"
      ∧ detectNegationAdvanced (tokenize demoC2Text) 3 =
        { isNegated := true, type := "hard", strength := 5/6,
          negator := some "not", distance := some 1 })
    ∧ (∀ (tokens : List Token) (idx : ℕ),
        (negScanBest tokens idx).isNegated = true →
        1 < hardNegatorCount tokens idx →
        hardNegatorCount tokens idx % 2 = 0 →
        detectNegationAdvanced tokens idx =
          { negScanBest tokens idx with
            isNegated := false, strength := 0, type := "double_negative" })
    ∧ (∀ (tokens : List Token) (idx : ℕ),
        ¬(1 < hardNegatorCount tokens idx ∧ hardNegatorCount tokens idx % 2 = 0) →
        detectNegationAdvanced tokens idx = negScanBest tokens idx) := by
  refine ⟨?_, ?_, ?_⟩
  · rw [tokenize_demoC2]
    with_unfolding_all decide
  · intro tokens idx h1 h2 h3
    simp only [detectNegationAdvanced]
    rw [if_pos h1, if_pos ⟨h2, h3⟩]
  · intro tokens idx hn
    simp only [detectNegationAdvanced]
    by_cases hb : (negScanBest tokens idx).isNegated = true
    · rw [if_pos hb, if_neg hn]
    · rw [if_neg hb]

/-- C2 witness: the cancellation branch fires on
`"I am not not never going to fail."` (two hard negators precede
`never`), and the unchanged branch fires on the claim's input. -/
theorem C2_negation_witness :
    detectNegationAdvanced (tokenize demoC2CancelText) 4 =
      { negScanBest (tokenize demoC2CancelText) 4 with
        isNegated := false, strength := 0, type := "double_negative" }
    ∧ detectNegationAdvanced (tokenize demoC2Text) 3 =
        negScanBest (tokenize demoC2Text) 3 :=
  ⟨C2_negation_amended.2.1 (tokenize demoC2CancelText) 4
      (by rw [tokenize_demoC2Cancel]; with_unfolding_all decide)
      (by rw [tokenize_demoC2Cancel]; with_unfolding_all decide)
      (by rw [tokenize_demoC2Cancel]; with_unfolding_all decide),
   C2_negation_amended.2.2 (tokenize demoC2Text) 3
      (by rw [tokenize_demoC2]; with_unfolding_all decide)⟩

theorem mapSet_length {K V : Type} [DecidableEq K] (cache : List (K × V)) (k : K) (v : V) :
    (mapSet cache k v).length ≤ cache.length + 1 := by
  simp only [mapSet]
  split
  · rw [List.length_map]; omega
  · rw [List.length_append]; simp

/-- C8 (amended): the result cache can hold up to 101 entries, not 100:
eviction only happens when the size already EXCEEDS 100, so an insert
into a 100-entry cache yields 101.  The invariant `size ≤ 101` is
preserved by every insertion, and when the bound is passed the evicted
entry is the oldest inserted key (the head of the insertion order). -/
theorem C8_cache_bound_amended :
    (∀ {K V : Type} [DecidableEq K] (c : List (K × V)) (k : K) (v : V),
      c.length ≤ 101 → (setToCache c k v).length ≤ 101)
    ∧ (∀ {K V : Type} [DecidableEq K] (e : K × V) (rest : List (K × V)) (k : K) (v : V),
      100 < (e :: rest).length → e.1 ∉ rest.map Prod.fst → e.1 ≠ k →
      (setToCache (e :: rest) k v).all (fun p => decide (p.1 ≠ e.1)) = true) := by
  constructor
  · intro K V _ c k v hlen
    simp only [setToCache]
    split
    · refine le_trans (mapSet_length _ _ _) ?_
      rw [List.length_drop]
      omega
    · exact le_trans (mapSet_length _ _ _) (by omega)
  · intro K V _ e rest k v hlen hni hnk
    simp only [setToCache]
    rw [if_pos (by simpa using hlen)]
    rw [List.all_eq_true]
    intro p hp
    rw [decide_eq_true_eq]
    have hrest : ∀ q ∈ rest, q.1 ≠ e.1 := by
      intro q hq hqe
      exact hni (hqe ▸ List.mem_map_of_mem Prod.fst hq)
    have hdrop : (e :: rest).drop 1 = rest := rfl
    rw [hdrop] at hp
    simp only [mapSet] at hp
    split at hp
    · obtain ⟨q, hq, hpq⟩ := List.mem_map.mp hp
      by_cases hqk : q.1 = k
      · rw [if_pos hqk] at hpq
        rw [← hpq]
        exact fun h => hnk h.symm
      · rw [if_neg hqk] at hpq
        exact hpq ▸ hrest q hq
    · rcases List.mem_append.mp hp with h | h
      · exact hrest p h
      · rw [List.mem_singleton.mp h]
        exact fun h => hnk h.symm

/-- C8 counterexample: 101 insertions of distinct keys leave the cache
at size 101, above the claimed bound of 100 (and the size stays 101
after further insertions, with the oldest key evicted). -/
theorem C8_counterexample_size_101 :
    ((List.range 101).foldl (fun c k => setToCache c k 0) ([] : List (ℕ × ℕ))).length = 101
    ∧ ¬(((List.range 101).foldl (fun c k => setToCache c k 0)
          ([] : List (ℕ × ℕ))).length ≤ 100)
    ∧ ((List.range 102).foldl (fun c k => setToCache c k 0) ([] : List (ℕ × ℕ))).length = 101
    ∧ ((List.range 102).foldl (fun c k => setToCache c k 0) ([] : List (ℕ × ℕ))).all
        (fun p => decide (p.1 ≠ 0)) = true := by
  refine ⟨?_, ?_, ?_, ?_⟩ <;> with_unfolding_all decide

/-- C8 witness: the amended bound and the FIFO eviction applied at
concrete caches. -/
theorem C8_cache_bound_witness :
    (setToCache ([] : List (ℕ × ℕ)) 0 0).length ≤ 101
    ∧ (setToCache ((0, 0) :: bigCacheTail) 500 7).all
        (fun p => decide (p.1 ≠ (0, (0 : ℕ)).1)) = true :=
  ⟨C8_cache_bound_amended.1 ([] : List (ℕ × ℕ)) 0 0 (by norm_num),
   C8_cache_bound_amended.2 ((0 : ℕ), (0 : ℕ)) bigCacheTail 500 7
     (by with_unfolding_all decide) (by with_unfolding_all decide)
     (by with_unfolding_all decide)⟩

theorem natCastDiv_le_one {a b : ℕ} (h : a ≤ b) : ((a : ℚ) / (b : ℚ)) ≤ 1 := by
  rcases Nat.eq_zero_or_pos b with hb | hb
  · subst hb
    simp at h
    simp [h]
  · rw [div_le_one (by positivity)]
    exact_mod_cast h

theorem distributionScore_nonneg (positions : List ℕ) (totalLength : ℕ) :
    0 ≤ calculateEnhancedDistributionScore positions totalLength := by
  simp only [calculateEnhancedDistributionScore]
  split
  · norm_num
  · exact le_trans (by norm_num) (le_max_left _ _)

theorem patternsTable_multiplier_pos : ∀ e ∈ patternsTable, 0 < e.2.weight_multiplier := by
  with_unfolding_all decide

theorem effWeightMultiplier_nonneg {c : String} {p : PatternDef}
    (h : kbPatterns c = some p) : 0 ≤ effWeightMultiplier p := by
  have hpos : 0 < p.weight_multiplier :=
    patternsTable_multiplier_pos (c, p) (lookupA_mem h)
  simp only [effWeightMultiplier]
  rw [if_neg hpos.ne']
  exact le_of_lt hpos

theorem finalizeStats_confidence_nonneg (totalHits : ℕ) (c : String) (s : RawStats)
    (hws : 0 ≤ s.weightedScore) : 0 ≤ (finalizeStats totalHits c s).confidence := by
  have hcount : (0 : ℚ) ≤ min ((s.count : ℚ) / 5) 1 :=
    le_min (by positivity) (by norm_num)
  have hweight : (0 : ℚ) ≤ s.weightedScore / ((s.count : ℚ) * 5) :=
    div_nonneg hws (by positivity)
  have hdist := distributionScore_nonneg s.positions totalHits
  have hcluster : (0 : ℚ) ≤ min ((s.clusters.length : ℚ) / 3) 1 :=
    le_min (by positivity) (by norm_num)
  have hq : ((s.markers.filter (fun m => m.negated)).length : ℚ) / (s.markers.length : ℚ) ≤ 1 :=
    natCastDiv_le_one (List.length_filter_le _ _)
  have hqn : (0 : ℚ) ≤
      ((s.markers.filter (fun m => m.negated)).length : ℚ) / (s.markers.length : ℚ) :=
    by positivity
  have hneg : (0 : ℚ) ≤
      1 - ((s.markers.filter (fun m => m.negated)).length : ℚ) / (s.markers.length : ℚ) * (1/2) := by
    nlinarith
  have hconf0 : (0 : ℚ) ≤ min ((s.count : ℚ) / 5) 1 * (1/4)
      + s.weightedScore / ((s.count : ℚ) * 5) * (1/4)
      + calculateEnhancedDistributionScore s.positions totalHits * (1/5)
      + min ((s.clusters.length : ℚ) / 3) 1 * (1/5)
      + (1 - ((s.markers.filter (fun m => m.negated)).length : ℚ)
          / (s.markers.length : ℚ) * (1/2)) * (1/10) := by
    nlinarith
  simp only [finalizeStats]
  split
  · rename_i p hp
    exact mul_nonneg hconf0 (effWeightMultiplier_nonneg hp)
  · exact hconf0

theorem mem_stepPS {ps : List (String × RawStats)} {h : Hit} {e : String × RawStats}
    (he : e ∈ stepPS ps h) :
    (∃ e0 ∈ ps, e = e0 ∨ e = (e0.1, addHitToStats e0.2 h))
    ∨ e = (h.category, addHitToStats {} h) := by
  simp only [stepPS] at he
  split at he
  · simp only [updateAssoc] at he
    obtain ⟨e0, he0, heq⟩ := List.mem_map.mp he
    left
    refine ⟨e0, he0, ?_⟩
    by_cases hc : e0.1 = h.category
    · rw [if_pos hc] at heq
      right
      rw [← heq]
    · rw [if_neg hc] at heq
      left
      rw [← heq]
  · rcases List.mem_append.mp he with h1 | h1
    · exact Or.inl ⟨e, h1, Or.inl rfl⟩
    · right
      exact List.mem_singleton.mp h1

theorem addHitToStats_ws_nonneg {s : RawStats} {h : Hit}
    (hs : 0 ≤ s.weightedScore) (hh : 0 ≤ h.adjustedWeight) :
    0 ≤ (addHitToStats s h).weightedScore := by
  simp only [addHitToStats]
  have : (0 : ℚ) ≤ h.adjustedWeight * (if h.isNegated then 1/2 else 1) := by
    apply mul_nonneg hh
    split <;> norm_num
  linarith

theorem agg_ws_nonneg (hits : List Hit) :
    ∀ (acc : List (String × RawStats)),
      (∀ e ∈ acc, 0 ≤ (e.2 : RawStats).weightedScore) →
      (∀ h ∈ hits, 0 ≤ h.adjustedWeight) →
      ∀ e ∈ hits.foldl stepPS acc, 0 ≤ e.2.weightedScore := by
  induction hits with
  | nil => intro acc hacc _ e he; exact hacc e he
  | cons h t ih =>
      intro acc hacc hw e he
      rw [List.foldl_cons] at he
      refine ih (stepPS acc h) ?_ (fun x hx => hw x (List.mem_cons_of_mem _ hx)) e he
      intro e2 he2
      have hh := hw h (List.mem_cons_self _ _)
      rcases mem_stepPS he2 with ⟨e0, he0, heq | heq⟩ | heq
      · exact heq ▸ hacc e0 he0
      · rw [heq]
        exact addHitToStats_ws_nonneg (hacc e0 he0) hh
      · rw [heq]
        exact addHitToStats_ws_nonneg (by norm_num [RawStats.weightedScore]) hh

/-- C7 (amended): whenever the enhanced aggregation completes (it throws
as soon as any cluster exists) and the incoming hits carry nonnegative
adjusted weights, every PatternScore confidence is nonnegative.  The
claimed upper bound 1 does not hold — see the counterexample, where a
confidence of 1.05 is produced. -/
theorem C7_pattern_confidence_amended :
    ∀ (hits : List Hit) (r : AggResult),
      (∀ h ∈ hits, 0 ≤ h.adjustedWeight) →
      aggregatePatternsWithClusters hits = Except.ok r →
      ∀ e ∈ r.patternScores, 0 ≤ e.2.confidence := by
  intro hits r hw hagg e he
  simp only [aggregatePatternsWithClusters] at hagg
  split at hagg
  · cases hagg
    obtain ⟨p0, hp0, heq⟩ := List.mem_map.mp he
    have hws : 0 ≤ p0.2.weightedScore :=
      agg_ws_nonneg hits [] (by intro e2 he2; simp at he2) hw p0 hp0
    rw [← heq]
    exact finalizeStats_confidence_nonneg hits.length p0.1 p0.2 hws
  · exact Except.noConfusion hagg

/-- C7 counterexample: a concrete input whose `catastrophizing` pattern
confidence is 1.05, outside the claimed interval [0, 1] (five-factor sum
0.7 before the 1.5 weight multiplier). -/
theorem C7_counterexample_confidence_above_one :
    c7Confidence = some (21/20) ∧ ¬((21/20 : ℚ) ≤ 1) := by
  constructor
  · simp only [c7Confidence, parseTextWithEnhancements, tokenize_demoC7]
    with_unfolding_all decide
  · norm_num

/-- C7 witness: the amended nonnegativity applied to a concrete one-hit
aggregation. -/
theorem C7_pattern_confidence_witness : 0 ≤ c7WitnessEntry.2.confidence :=
  C7_pattern_confidence_amended c7WitnessHits c7WitnessAgg
    (by with_unfolding_all decide) (by with_unfolding_all decide)
    c7WitnessEntry (by with_unfolding_all decide)

theorem foldl_max_spec (l : List ℚ) : ∀ a : ℚ,
    (l.foldl max a = a ∨ l.foldl max a ∈ l)
    ∧ a ≤ l.foldl max a
    ∧ ∀ x ∈ l, x ≤ l.foldl max a := by
  induction l with
  | nil => intro a; simp
  | cons b t ih =>
      intro a
      rw [List.foldl_cons]
      obtain ⟨h1, h2, h3⟩ := ih (max a b)
      refine ⟨?_, ?_, ?_⟩
      · rcases h1 with h | h
        · rcases max_choice a b with hm | hm
          · left; rw [h, hm]
          · right; rw [h, hm]; exact List.mem_cons_self _ _
        · right; exact List.mem_cons_of_mem _ h
      · exact le_trans (le_max_left a b) h2
      · intro x hx
        rcases List.mem_cons.mp hx with h | h
        · rw [h]
          exact le_trans (le_max_right a b) h2
        · exact h3 x h

theorem inferFold_inv (ps : List (String × RawStats)) :
    ∀ (acc : List (String × DriverData)),
      (∀ d dd, lookupA d acc = some dd →
        dd.contributingPatterns ≠ [] ∧
        dd.confidence = (dd.contributingPatterns.map ContribPattern.confidence).foldl max 0) →
      ∀ d dd, lookupA d (ps.foldl inferStep acc) = some dd →
        dd.contributingPatterns ≠ [] ∧
        dd.confidence = (dd.contributingPatterns.map ContribPattern.confidence).foldl max 0 := by
  induction ps with
  | nil => intro acc hacc; exact hacc
  | cons p t ih =>
      intro acc hacc
      rw [List.foldl_cons]
      apply ih
      intro d dd hdd
      simp only [inferStep] at hdd
      split at hdd
      · exact hacc d dd hdd
      · rename_i pat hpat
        split at hdd
        · rename_i dd0 hdd0
          rw [lookupA_updateAssoc] at hdd
          by_cases hkd : pat.driver = d
          · rw [if_pos hkd] at hdd
            obtain ⟨dd1, hdd1, heq⟩ := Option.map_eq_some'.mp hdd
            obtain ⟨hne1, hconf1⟩ := hacc d dd1 hdd1
            subst heq
            constructor
            · simp
            · simp only [List.map_append, List.foldl_append, hconf1]
              rfl
          · rw [if_neg hkd] at hdd
            exact hacc d dd hdd
        · rw [lookupA_append] at hdd
          split at hdd
          · rename_i v hla
            cases hdd
            exact hacc d _ hla
          · simp only [lookupA] at hdd
            split at hdd
            · cases hdd
              exact ⟨by simp, rfl⟩
            · exact Option.noConfusion hdd

/-- C6: for every input pattern-score map, every inferred driver's
confidence is the maximum (not the average) of its contributing
patterns' confidences (whenever those confidences are nonnegative, as
the aggregation stage guarantees), and the contributing-pattern list is
sorted by contribution, descending. -/
theorem C6_driver_confidence_max_and_sorted :
    ∀ (ps : List (String × RawStats)) (d : String) (dd : DriverData),
      lookupA d (inferDriversWithConfidence ps) = some dd →
      (∀ p ∈ dd.contributingPatterns, 0 ≤ p.confidence) →
      (∃ p ∈ dd.contributingPatterns, dd.confidence = p.confidence)
      ∧ (∀ p ∈ dd.contributingPatterns, p.confidence ≤ dd.confidence)
      ∧ dd.contributingPatterns.Pairwise (fun a b => b.contribution ≤ a.contribution) := by
  intro ps d dd hdd hconf
  simp only [inferDriversWithConfidence] at hdd
  rw [lookupA_map d finalizeDriver] at hdd
  obtain ⟨dd0, hdd0, heq⟩ := Option.map_eq_some'.mp hdd
  obtain ⟨hne0, hconf0⟩ :=
    inferFold_inv ps [] (by intro d2 dd2 h2; simp [lookupA] at h2) d dd0 hdd0
  subst heq
  have hcp : (finalizeDriver d dd0).contributingPatterns
      = insertionSortBy byContributionDesc dd0.contributingPatterns := rfl
  have hcf : (finalizeDriver d dd0).confidence = dd0.confidence := rfl
  have hmemiff : ∀ x, x ∈ (finalizeDriver d dd0).contributingPatterns
      ↔ x ∈ dd0.contributingPatterns := by
    intro x
    rw [hcp, mem_insertionSortBy]
  obtain ⟨hch, -, hall⟩ :=
    foldl_max_spec (dd0.contributingPatterns.map ContribPattern.confidence) 0
  refine ⟨?_, ?_, ?_⟩
  · rcases hch with h0 | hmem
    · obtain ⟨p0, hp0⟩ := List.exists_mem_of_ne_nil _ hne0
      refine ⟨p0, (hmemiff p0).mpr hp0, ?_⟩
      have h1 : p0.confidence ≤ 0 := by
        have := hall p0.confidence (List.mem_map_of_mem _ hp0)
        rw [h0] at this
        exact this
      have h2 : 0 ≤ p0.confidence := hconf p0 ((hmemiff p0).mpr hp0)
      rw [hcf, hconf0, h0]
      linarith
    · obtain ⟨p0, hp0, hpc⟩ := List.mem_map.mp hmem
      refine ⟨p0, (hmemiff p0).mpr hp0, ?_⟩
      rw [hcf, hconf0, ← hpc]
  · intro p hp
    rw [hcf, hconf0]
    exact hall p.confidence (List.mem_map_of_mem _ ((hmemiff p).mp hp))
  · rw [hcp]
    have htot : ∀ a b : ContribPattern,
        byContributionDesc a b = true ∨ byContributionDesc b a = true := by
      intro a b
      simp only [byContributionDesc, decide_eq_true_eq]
      exact le_total b.contribution a.contribution
    have htrans : ∀ a b c : ContribPattern, byContributionDesc a b = true →
        byContributionDesc b c = true → byContributionDesc a c = true := by
      intro a b c h1 h2
      simp only [byContributionDesc, decide_eq_true_eq] at *
      exact le_trans h2 h1
    exact (pairwise_insertionSortBy byContributionDesc htot htrans
      dd0.contributingPatterns).imp (fun h => of_decide_eq_true h)

/-- C6 witness: two validation patterns; the driver confidence 0.7 is
the larger of the two pattern confidences, and the contributing list is
sorted 2.8 before 1.3. -/
theorem C6_driver_confidence_witness :
    (∃ p ∈ ddDemoC6.contributingPatterns, ddDemoC6.confidence = p.confidence)
    ∧ (∀ p ∈ ddDemoC6.contributingPatterns, p.confidence ≤ ddDemoC6.confidence)
    ∧ ddDemoC6.contributingPatterns.Pairwise
        (fun a b => b.contribution ≤ a.contribution) :=
  C6_driver_confidence_max_and_sorted psDemoC6 "validation" ddDemoC6
    (by with_unfolding_all decide) (by with_unfolding_all decide)

/-- C10: every lexical contradiction emitted by the enhanced engine's
scan arises from a pair of hit-list indices `i < j` with `j ≤ i + 9` —
hit `i` is only compared with the next nine hits — while the standalone
resolver scans all later hits: on an 11-hit list whose first hit
contradicts its last (list gap 10, token distance 10, well within the
20-token distance factor), the enhanced scan emits nothing but the
resolver emits the contradiction. -/
theorem C10_lexical_scan_window :
    (∀ (hits : List Hit) (c : EngineConflict), c ∈ lexicalConflictsEnhanced hits →
      ∃ i j, i < j ∧ j ≤ i + 9 ∧ j < hits.length ∧ lexPairE hits i j = some c)
    ∧ lexicalConflictsEnhanced demoHitsFar = []
    ∧ lexicalConflictsResolver demoHitsFar ≠ [] := by
  refine ⟨?_, ?_, ?_⟩
  · intro hits c hc
    simp only [lexicalConflictsEnhanced, List.mem_flatMap, List.mem_filterMap] at hc
    obtain ⟨i, hi, j, hj, he⟩ := hc
    rw [List.mem_range] at hi
    rw [List.mem_range'_1] at hj
    refine ⟨i, j, ?_, ?_, ?_, he⟩ <;> omega
  · with_unfolding_all decide
  · with_unfolding_all decide

/-- C10 witness: on a two-hit list the emitted contradiction is produced
by the in-window pair (0, 1). -/
theorem C10_lexical_scan_witness :
    ∃ i j, i < j ∧ j ≤ i + 9 ∧ j < demoHitsNear.length
      ∧ lexPairE demoHitsNear i j = some cNearConflictC10 :=
  C10_lexical_scan_window.1 demoHitsNear cNearConflictC10 (by with_unfolding_all decide)
